import Mathlib

/-! CMSIS-DAP Communicator: the shared-memory command dispatcher.

A shallow embedding of `Firmware/source/communicator.c` (with the constants of
`maestro.h` and `main.c` it reads), followed by theorems about it.

Conventions.
* `CommData_t.Header` is the 32-bit word `Header.Value`; the bit-fields that the
  C union overlays on it are the `Header_*` selectors and `Header_set*` updates
  below, allocated from the least significant bit upwards as the little-endian
  ARM ABI does for the packed struct.
* Memory bytes have type `Byte`; a byte array is a function from the index to
  the byte stored there. `CommData_t.Data` has 124 elements in the source
  (`Data_SIZE`); its indices from 124 on name the memory behind the frame.
* `sizeof(coreInfo)` and `sizeof(Keys_0)` come from `OnethinxCore01.h`, which is
  not part of the sources at hand; they are the two fields of `Sizes`.
* `dataCnt` is a `uint16_t`: every update of it is reduced modulo 65536.
-/

namespace OTX

/-! ## Command_e -/

/-- Command_e.CMD_IDLE -/
abbrev CMD_IDLE : Nat := 0
/-- Command_e.CMD_INFO_STACK -/
abbrev CMD_INFO_STACK : Nat := 1
/-- Command_e.CMD_INFO_FIRMWARE -/
abbrev CMD_INFO_FIRMWARE : Nat := 2
/-- Command_e.CMD_KEYS -/
abbrev CMD_KEYS : Nat := 3
/-- Command_e.CMD_ADCVAL -/
abbrev CMD_ADCVAL : Nat := 4
/-- Command_e.CMD_LEDS -/
abbrev CMD_LEDS : Nat := 5
/-- Command_e.CMD_EXIT -/
abbrev CMD_EXIT : Nat := 0xFF

/-! ## CommData_t -/

/-- One byte of memory (`uint8_t`). -/
abbrev Byte : Type := Fin 256

/-- Number of elements of `CommData_t.Data`. -/
abbrev Data_SIZE : Nat := 124

/-- Number of bytes of `CommData_t.Header` (the `uint32_t Value` of the union). -/
abbrev Header_SIZE : Nat := 4

/-- The frame `CommData_t`: the header word and the payload bytes. -/
structure CommData_t where
  /-- The word `Header.Value`. -/
  Header : Nat
  /-- The array `Data`. -/
  Data : Nat → Byte

/-- Bit-field `Header.Command` (8 bits from bit 0). -/
def Header_Command (v : Nat) : Nat := v % 256

/-- Bit-field `Header.Read` (bit 8). -/
def Header_Read (v : Nat) : Nat := v / 256 % 2

/-- The two unnamed padding bit-fields of the header: bits 9 to 11, and bit 15. -/
def Header_padding (v : Nat) : Nat × Nat := (v / 512 % 8, v / 32768 % 2)

/-- Bit-field `Header.SizeInvalid` (bit 12). -/
def Header_SizeInvalid (v : Nat) : Nat := v / 4096 % 2

/-- Bit-field `Header.CommandInvalid` (bit 13). -/
def Header_CommandInvalid (v : Nat) : Nat := v / 8192 % 2

/-- Bit-field `Header.Reset` (bit 14). -/
def Header_Reset (v : Nat) : Nat := v / 16384 % 2

/-- Member `Header.DataLength` (the `uint16_t` in bytes 2 and 3). -/
def Header_DataLength (v : Nat) : Nat := v / 65536 % 65536

/-- Assignment `Header.Command = x`. -/
def Header_setCommand (v x : Nat) : Nat := v - v % 256 + x % 256

/-- Assignment `Header.Read = x`. -/
def Header_setRead (v : Nat) (x : Bool) : Nat :=
  v - v / 256 % 2 * 256 + (if x then 1 else 0) * 256

/-- Assignment `Header.SizeInvalid = x`. -/
def Header_setSizeInvalid (v : Nat) (x : Bool) : Nat :=
  v - v / 4096 % 2 * 4096 + (if x then 1 else 0) * 4096

/-- Assignment `Header.CommandInvalid = x`. -/
def Header_setCommandInvalid (v : Nat) (x : Bool) : Nat :=
  v - v / 8192 % 2 * 8192 + (if x then 1 else 0) * 8192

/-- Assignment `Header.Reset = x`. -/
def Header_setReset (v : Nat) (x : Bool) : Nat :=
  v - v / 16384 % 2 * 16384 + (if x then 1 else 0) * 16384

/-- Assignment `Header.DataLength = x`. -/
def Header_setDataLength (v x : Nat) : Nat :=
  v - v / 65536 % 65536 * 65536 + x % 65536 * 65536

/-- The header word whose named fields hold the given values and whose padding
bits are clear. -/
def Header_pack (command : Nat) (read sizeInvalid commandInvalid reset : Bool)
    (dataLength : Nat) : Nat :=
  Header_setDataLength
    (Header_setReset
      (Header_setCommandInvalid
        (Header_setSizeInvalid
          (Header_setRead (Header_setCommand 0 command) read) sizeInvalid)
        commandInvalid) reset) dataLength

/-- Byte `i` of a word: the low eight bits after dropping `8 * i` bits. -/
def byteOf (x i : Nat) : Byte := ⟨x / 256 ^ i % 256, Nat.mod_lt _ (by decide)⟩

/-- The store `Data[i] = b`. -/
def setByte (m : Nat → Byte) (i : Nat) (b : Byte) : Nat → Byte :=
  fun j => if j = i then b else m j

/-- The store `* (uint32_t *) &Data = x`: four bytes, least significant first. -/
def storeLE32 (m : Nat → Byte) (x : Nat) : Nat → Byte :=
  setByte (setByte (setByte (setByte m 0 (byteOf x 0)) 1 (byteOf x 1)) 2 (byteOf x 2))
    3 (byteOf x 3)

/-- The load `* (uint32_t *) &Data`. -/
def loadLE32 (m : Nat → Byte) : Nat :=
  (m 0).val + 256 * (m 1).val + 65536 * (m 2).val + 16777216 * (m 3).val

/-- The `uint32_t` bit pattern of an `int32_t` (two's complement). -/
def int32Bits (x : Int) : Nat := (x % 4294967296).toNat

/-- The `int32_t` that a `uint32_t` bit pattern stands for. -/
def int32OfBits (w : Nat) : Int :=
  if w % 4294967296 < 2147483648 then (w % 4294967296 : Nat)
  else ((w % 4294967296 : Nat) : Int) - 4294967296

/-- The 128 bytes of the frame as the debug channel sees them: the header
word, least significant byte first, then `Data[0]` to `Data[123]`. -/
def CommData_bytes (c : CommData_t) : List Byte :=
  (List.range Header_SIZE).map (byteOf c.Header) ++ (List.range Data_SIZE).map c.Data

/-! ## FirmwareInfo (maestro.h, main.c) -/

/-- The record type `FirmwareInfo_t`. -/
structure FirmwareInfo_t where
  FirmwareVersion : Nat
  BuildYear : Nat
  BuildMonth : Nat
  BuildDayOfMonth : Nat
  BuildHour : Nat
  BuildMinute : Nat
  BuildSecond : Nat
  BuildNumber : Nat

/-- The constant `FirmwareInfo` of `main.c`, with the build values of `maestro.h`. -/
def FirmwareInfo : FirmwareInfo_t where
  FirmwareVersion := 0x00000100
  BuildYear := 25
  BuildMonth := 6
  BuildDayOfMonth := 25
  BuildHour := 18
  BuildMinute := 37
  BuildSecond := 25
  BuildNumber := 7177

/-- Value of `sizeof(FirmwareInfo)`: three packed 32-bit words. -/
abbrev sizeof_FirmwareInfo : Nat := 12

/-- The word holding the six build-time bit-fields (6, 4, 5, 5, 6 and 6 bits). -/
def FirmwareInfo_t.buildWord (f : FirmwareInfo_t) : Nat :=
  f.BuildYear % 64 + 64 * (f.BuildMonth % 16) + 1024 * (f.BuildDayOfMonth % 32)
    + 32768 * (f.BuildHour % 32) + 1048576 * (f.BuildMinute % 64)
    + 67108864 * (f.BuildSecond % 64)

/-- The byte `((uint8_t *) &FirmwareInfo)[i]`. -/
def FirmwareInfo_t.byte (f : FirmwareInfo_t) (i : Nat) : Byte :=
  if i < 4 then byteOf f.FirmwareVersion i
  else if i < 8 then byteOf f.buildWord (i - 4)
  else byteOf f.BuildNumber (i - 8)

/-! ## Device state -/

/-- Sizes of the two records declared in `OnethinxCore01.h`. -/
structure Sizes where
  /-- Value of `sizeof(coreInfo)`. -/
  sizeof_coreInfo : Nat
  /-- Value of `sizeof(Keys_0)`. -/
  sizeof_Keys_0 : Nat

/-- The globals the dispatcher reads and writes besides the frame, and the two
indicator pins. -/
structure Device where
  /-- The field `coreStatus.system.version`. -/
  version : Nat
  /-- The bytes of `coreInfo`. -/
  coreInfo : Nat → Byte
  /-- The bytes of `Keys_0`. -/
  Keys_0 : Nat → Byte
  /-- The global `leds`. -/
  leds : Nat
  /-- Level last written to the pin `LED_R`. -/
  LED_R : Bool
  /-- Level last written to the pin `LED_B`. -/
  LED_B : Bool

/-- Everything a pass of the dispatcher can touch. -/
structure State where
  CommData : CommData_t
  dev : Device

/-! ## Communicator -/

/-- The loop `for (; dataCnt < size; dataCnt++) body`, the counter being a
`uint16_t`. The first argument bounds the number of tests of the loop condition;
`none` means the bound was reached with the condition still true. -/
def forLoop (size : Nat) (body : Nat → State → State) : Nat → Nat → State → Option (Nat × State)
  | 0, _, _ => none
  | fuel + 1, dataCnt, s =>
    if dataCnt < size then forLoop size body fuel ((dataCnt + 1) % 65536) (body dataCnt s)
    else some (dataCnt, s)

/-- Number of values of the `uint16_t` counter. A counted loop that has not
left after this many tests of its condition has wrapped around to 0 and goes on
for ever. -/
abbrev loopFuel : Nat := 65536

/-- How a `switch` of the dispatcher is left. -/
inductive Switch where
  /-- Left by `break`, with the value of `dataCnt`. -/
  | brk (dataCnt : Nat) (s : State)
  /-- Left by `return` (the `CMD_EXIT` case). -/
  | ret (s : State)

/-- Result of a pass of the `while (true)` body. -/
inductive Outcome where
  /-- The end of the body was reached: the loop goes round again. -/
  | looping (s : State)
  /-- The function `Communicator` returned to its caller. -/
  | returned (s : State)

/-- The state in which a pass ends. -/
def Outcome.state : Outcome → State
  | Outcome.looping s => s
  | Outcome.returned s => s

/-- Whether the pass left `Communicator`. -/
def Outcome.exited : Outcome → Bool
  | Outcome.looping _ => false
  | Outcome.returned _ => true

/-- The statement `CommData->Header.Value = 0x00004000` before the loop. -/
def Communicator_init (s : State) : State :=
  { s with CommData := { s.CommData with Header := 0x00004000 } }

/-- The statement `CommData->Header.CommandInvalid = true`. -/
def markCommandInvalid (s : State) : State :=
  { s with CommData := { s.CommData with Header := Header_setCommandInvalid s.CommData.Header true } }

/-- The `switch` of the read branch; `adc` is what `GetADCvoltage` returns when
it is called. -/
def readSwitch (z : Sizes) (adc : Int) (s : State) : Option Switch :=
  let command := Header_Command s.CommData.Header
  if command = CMD_INFO_STACK then
    let s1 : State :=
      { s with CommData := { s.CommData with Data := storeLE32 s.CommData.Data s.dev.version } }
    (forLoop z.sizeof_coreInfo
      (fun dataCnt t =>
        { t with CommData :=
            { t.CommData with Data := setByte t.CommData.Data (dataCnt + 4) (t.dev.coreInfo dataCnt) } })
      loopFuel 0 s1).map (fun r => Switch.brk ((r.1 + 4) % 65536) r.2)
  else if command = CMD_INFO_FIRMWARE then
    (forLoop sizeof_FirmwareInfo
      (fun dataCnt t =>
        { t with CommData :=
            { t.CommData with Data := setByte t.CommData.Data dataCnt (FirmwareInfo.byte dataCnt) } })
      loopFuel 0 s).map (fun r => Switch.brk r.1 r.2)
  else if command = CMD_KEYS then
    (forLoop z.sizeof_Keys_0
      (fun dataCnt t =>
        { t with CommData :=
            { t.CommData with Data := setByte t.CommData.Data dataCnt (t.dev.Keys_0 dataCnt) } })
      loopFuel 0 s).map (fun r => Switch.brk r.1 r.2)
  else if command = CMD_ADCVAL then
    some (Switch.brk 4
      { s with CommData := { s.CommData with Data := storeLE32 s.CommData.Data (int32Bits adc) } })
  else if command = CMD_LEDS then
    some (Switch.brk 4
      { s with CommData := { s.CommData with Data := storeLE32 s.CommData.Data s.dev.leds } })
  else
    some (Switch.brk 0 (markCommandInvalid s))

/-- The `switch` of the write branch. -/
def writeSwitch (z : Sizes) (s : State) : Option Switch :=
  let command := Header_Command s.CommData.Header
  if command = CMD_KEYS then
    (forLoop z.sizeof_Keys_0
      (fun dataCnt t =>
        { t with dev := { t.dev with Keys_0 := setByte t.dev.Keys_0 dataCnt (t.CommData.Data dataCnt) } })
      loopFuel 0 s).map (fun r => Switch.brk r.1 r.2)
  else if command = CMD_LEDS then
    let leds := loadLE32 s.CommData.Data
    some (Switch.brk 4
      { s with dev :=
          { s.dev with
            leds := leds
            LED_R := (leds &&& 0x00000001) != 0
            LED_B := (leds &&& 0x00000100) != 0 } })
  else if command = CMD_EXIT then
    some (Switch.ret
      { s with CommData := { s.CommData with Header := Header_setCommand s.CommData.Header CMD_IDLE } })
  else
    some (Switch.brk 0 (markCommandInvalid s))

/-- The three statements after the branches: `SizeInvalid`, `DataLength`, `Command`. -/
def complete (dataCnt : Nat) (s : State) : State :=
  let h0 := s.CommData.Header
  let h1 := Header_setSizeInvalid h0 (Header_DataLength h0 != dataCnt)
  let h2 := Header_setDataLength h1 dataCnt
  let h3 := Header_setCommand h2 CMD_IDLE
  { s with CommData := { s.CommData with Header := h3 } }

/-- What follows a `switch`. -/
def afterSwitch : Switch → Outcome
  | Switch.brk dataCnt s => Outcome.looping (complete dataCnt s)
  | Switch.ret s => Outcome.returned s

/-- One pass of the body of `while (true)` in `Communicator`; `none` when a
counted loop inside it never ends. -/
def Communicator_pass (z : Sizes) (adc : Int) (s : State) : Option Outcome :=
  if Header_Command s.CommData.Header ≠ CMD_IDLE then
    if Header_Read s.CommData.Header ≠ 0 then
      (readSwitch z adc s).map afterSwitch
    else
      (writeSwitch z s).map afterSwitch
  else
    some (Outcome.looping s)

/-- The first `n` passes of the loop with no host access in between; pass `k`
(counted from the last one, 0) would get the sample `adc k`. A pass that returns
ends the run. -/
def Communicator_polls (z : Sizes) (adc : Nat → Int) : Nat → State → Option Outcome
  | 0, s => some (Outcome.looping s)
  | n + 1, s =>
    match Communicator_pass z (adc n) s with
    | some (Outcome.looping t) => Communicator_polls z adc n t
    | r => r

/-! ## The operations as the protocol describes them -/

/-- The number of bytes an operation produces (read) or consumes (write), as the
protocol describes the operations: a read of the stack information gives the
4-byte version and the stack-info record, a read of the firmware metadata the
12-byte record, a read or write of the keys the key record, a read of the
analog value or a read or write of the indicators 4 bytes, and anything else
transfers nothing. -/
def transferCount (z : Sizes) (read command : Nat) : Nat :=
  if read ≠ 0 then
    if command = CMD_INFO_STACK then 4 + z.sizeof_coreInfo
    else if command = CMD_INFO_FIRMWARE then sizeof_FirmwareInfo
    else if command = CMD_KEYS then z.sizeof_Keys_0
    else if command = CMD_ADCVAL then 4
    else if command = CMD_LEDS then 4
    else 0
  else
    if command = CMD_KEYS then z.sizeof_Keys_0
    else if command = CMD_LEDS then 4
    else 0

/-- Whether a command names a known operation for the selected direction: the
five reads, and the writes of keys and indicators and the `Exit` sentinel. -/
def knownOperation (read command : Nat) : Bool :=
  if read ≠ 0 then
    decide (command = CMD_INFO_STACK ∨ command = CMD_INFO_FIRMWARE ∨ command = CMD_KEYS
      ∨ command = CMD_ADCVAL ∨ command = CMD_LEDS)
  else
    decide (command = CMD_KEYS ∨ command = CMD_LEDS ∨ command = CMD_EXIT)

/-! ## PrintF: the UART transmit path (PrintF.c) and its baud-rate table (PrintF.h) -/

/-- CY_SCB_FIFO_SIZE -/
abbrev CY_SCB_FIFO_SIZE : Nat := 128

/-- The part of the SCB block `UART_HW` that `_write` touches. -/
structure SCB where
  /-- Field `SCB_CTRL_BYTE_MODE` of the register `SCB_CTRL`. -/
  byteMode : Bool
  /-- Field `SCB_TX_FIFO_STATUS_USED` of the register `SCB_TX_FIFO_STATUS`, as a
  read of the register returns it. -/
  txUsed : Nat
  /-- The words stored to the register `SCB_TX_FIFO_WR`, oldest first. -/
  txFifoWr : List Nat

/-- Cy_SCB_GetFifoSize -/
def Cy_SCB_GetFifoSize (base : SCB) : Nat :=
  if base.byteMode then CY_SCB_FIFO_SIZE else CY_SCB_FIFO_SIZE / 2

/-- Cy_SCB_GetNumInTxFifo -/
def Cy_SCB_GetNumInTxFifo (base : SCB) : Nat := base.txUsed

/-- Cy_SCB_WriteTxFifo -/
def Cy_SCB_WriteTxFifo (base : SCB) (data : Nat) : SCB :=
  { base with txFifoWr := base.txFifoWr ++ [data] }

/-- The loop `for (int idx = 0UL; idx < numToCopy; ++idx)` of `_write`, from the
value `idx` on. The characters of `ptr` are bytes (`char` is unsigned in the ARM
ABI), so `(uint32_t) ptr[idx]` is the value of the byte. -/
def _write_loop (ptr : Nat → Byte) (numToCopy : Int) (idx : Int) (base : SCB) : SCB :=
  if idx < numToCopy then
    _write_loop ptr numToCopy (idx + 1) (Cy_SCB_WriteTxFifo base (ptr idx.toNat).val)
  else base
termination_by (numToCopy - idx).toNat
decreasing_by omega

/-- The function `_write`: the value returned and the SCB block it leaves. The
difference of the two `uint32_t` values wraps modulo 2^32 and is then read as
an `int`. -/
def _write (base : SCB) (ptr : Nat → Byte) (len : Int) : Int × SCB :=
  let numToCopy : Int :=
    int32OfBits ((Cy_SCB_GetFifoSize base + 4294967296
      - Cy_SCB_GetNumInTxFifo base % 4294967296) % 4294967296)
  let numToCopy : Int := if numToCopy > len then len else numToCopy
  (numToCopy, _write_loop ptr numToCopy 0 base)

/-- The clock `CLK_PERI` in Hz, as the comment of `PrintF.h` gives it. -/
abbrev CLK_PERI : Nat := 8000000

/-- PERI_DIV_VALUE -/
abbrev PERI_DIV_VALUE : Nat := 0

/-- UART_OVERSAMPLE -/
abbrev UART_OVERSAMPLE : Nat := 16

/-- The formula of the comment,
`Baudrate = CLK_PERI (8MHz) / (PERI_DIV_VALUE + 1) / UART_OVERSAMPLE`, in whole
baud. -/
def Baudrate (periDivValue uartOversample : Nat) : Nat :=
  CLK_PERI / (periDivValue + 1) / uartOversample

/-- A row of the table of recommended settings; `ERROR` is in hundredths of a
percent. -/
structure BaudRow where
  BAUDRATE : Nat
  PERI_DIV_VALUE : Nat
  UART_OVERSAMPLE : Nat
  ACTUAL : Nat
  ERROR : Int
deriving DecidableEq

/-- The table of recommended baud-rate settings of `PrintF.h`, row by row. -/
def baudTable : List BaudRow :=
  [ ⟨1000000, 0, 8, 1000000, 0⟩,
    ⟨500000, 0, 16, 500000, 0⟩,
    ⟨250000, 1, 16, 250000, 0⟩,
    ⟨125000, 6, 16, 125000, 0⟩,
    ⟨115200, 4, 11, 116279, 94⟩,
    ⟨38400, 12, 16, 38095, -79⟩,
    ⟨19200, 25, 16, 19512, 162⟩,
    ⟨9600, 51, 16, 9803, 208⟩ ]

/-- Whether the `ACTUAL` column of a row is what the formula gives for the
settings of the row. -/
def BaudRow.actualMatches (r : BaudRow) : Bool :=
  decide (Baudrate r.PERI_DIV_VALUE r.UART_OVERSAMPLE = r.ACTUAL)

/-- Whether the `ERROR` column of a row is the relative deviation of `ACTUAL`
from `BAUDRATE`, in percent to two decimals (within half a hundredth). -/
def BaudRow.errorMatches (r : BaudRow) : Bool :=
  decide (2 * (r.ERROR * (r.BAUDRATE : Int)
      - ((r.ACTUAL : Int) - (r.BAUDRATE : Int)) * 10000).natAbs ≤ r.BAUDRATE)

/-- The byte image of the state that a read command names, as the protocol
describes the reads: the stack version in four bytes, least significant first,
followed by the stack-info record; the firmware record; the key record; the
sample of the conversion as a 32-bit two's complement number, least significant
byte first; the indicator mask in four bytes, least significant first. -/
def readImage (adc : Int) (d : Device) (command : Nat) (j : Nat) : Byte :=
  if command = CMD_INFO_STACK then
    if j < 4 then byteOf d.version j else d.coreInfo (j - 4)
  else if command = CMD_INFO_FIRMWARE then FirmwareInfo.byte j
  else if command = CMD_KEYS then d.Keys_0 j
  else if command = CMD_ADCVAL then byteOf (int32Bits adc) j
  else byteOf d.leds j

/-! ## The indices of `Data` that a pass reads or writes -/

/-- A state together with the indices of `CommData->Data` accessed so far,
oldest first. -/
structure Traced where
  /-- The state. -/
  s : State
  /-- The indices accessed. -/
  touched : List Nat

/-- The loop `forLoop` over a traced state. -/
def forLoopT (size : Nat) (body : Nat → Traced → Traced) :
    Nat → Nat → Traced → Option (Nat × Traced)
  | 0, _, _ => none
  | fuel + 1, dataCnt, t =>
    if dataCnt < size then forLoopT size body fuel ((dataCnt + 1) % 65536) (body dataCnt t)
    else some (dataCnt, t)

/-- The switch of the read branch, as `readSwitch`, with the indices of `Data`
it accesses: a 32-bit store accesses the indices 0 to 3, a round of a copy loop
the index it stores to. -/
def readSwitchT (z : Sizes) (adc : Int) (s : State) : Option (Switch × List Nat) :=
  let command := Header_Command s.CommData.Header
  if command = CMD_INFO_STACK then
    let s1 : State :=
      { s with CommData := { s.CommData with Data := storeLE32 s.CommData.Data s.dev.version } }
    (forLoopT z.sizeof_coreInfo
      (fun dataCnt t =>
        ⟨{ t.s with CommData :=
            { t.s.CommData with
              Data := setByte t.s.CommData.Data (dataCnt + 4) (t.s.dev.coreInfo dataCnt) } },
          t.touched ++ [dataCnt + 4]⟩)
      loopFuel 0 ⟨s1, [0, 1, 2, 3]⟩).map
        (fun r => (Switch.brk ((r.1 + 4) % 65536) r.2.s, r.2.touched))
  else if command = CMD_INFO_FIRMWARE then
    (forLoopT sizeof_FirmwareInfo
      (fun dataCnt t =>
        ⟨{ t.s with CommData :=
            { t.s.CommData with
              Data := setByte t.s.CommData.Data dataCnt (FirmwareInfo.byte dataCnt) } },
          t.touched ++ [dataCnt]⟩)
      loopFuel 0 ⟨s, []⟩).map (fun r => (Switch.brk r.1 r.2.s, r.2.touched))
  else if command = CMD_KEYS then
    (forLoopT z.sizeof_Keys_0
      (fun dataCnt t =>
        ⟨{ t.s with CommData :=
            { t.s.CommData with
              Data := setByte t.s.CommData.Data dataCnt (t.s.dev.Keys_0 dataCnt) } },
          t.touched ++ [dataCnt]⟩)
      loopFuel 0 ⟨s, []⟩).map (fun r => (Switch.brk r.1 r.2.s, r.2.touched))
  else if command = CMD_ADCVAL then
    some (Switch.brk 4
      { s with CommData := { s.CommData with Data := storeLE32 s.CommData.Data (int32Bits adc) } },
      [0, 1, 2, 3])
  else if command = CMD_LEDS then
    some (Switch.brk 4
      { s with CommData := { s.CommData with Data := storeLE32 s.CommData.Data s.dev.leds } },
      [0, 1, 2, 3])
  else
    some (Switch.brk 0 (markCommandInvalid s), [])

/-- The switch of the write branch, as `writeSwitch`, with the indices of `Data`
it accesses: a round of the copy loop the index it loads from, the 32-bit load
the indices 0 to 3. -/
def writeSwitchT (z : Sizes) (s : State) : Option (Switch × List Nat) :=
  let command := Header_Command s.CommData.Header
  if command = CMD_KEYS then
    (forLoopT z.sizeof_Keys_0
      (fun dataCnt t =>
        ⟨{ t.s with dev :=
            { t.s.dev with
              Keys_0 := setByte t.s.dev.Keys_0 dataCnt (t.s.CommData.Data dataCnt) } },
          t.touched ++ [dataCnt]⟩)
      loopFuel 0 ⟨s, []⟩).map (fun r => (Switch.brk r.1 r.2.s, r.2.touched))
  else if command = CMD_LEDS then
    let leds := loadLE32 s.CommData.Data
    some (Switch.brk 4
      { s with dev :=
          { s.dev with
            leds := leds
            LED_R := (leds &&& 0x00000001) != 0
            LED_B := (leds &&& 0x00000100) != 0 } },
      [0, 1, 2, 3])
  else if command = CMD_EXIT then
    some (Switch.ret
      { s with CommData := { s.CommData with Header := Header_setCommand s.CommData.Header CMD_IDLE } },
      [])
  else
    some (Switch.brk 0 (markCommandInvalid s), [])

/-- One pass, as `Communicator_pass`, with the indices of `Data` it accesses. -/
def Communicator_passT (z : Sizes) (adc : Int) (s : State) : Option (Outcome × List Nat) :=
  if Header_Command s.CommData.Header ≠ CMD_IDLE then
    if Header_Read s.CommData.Header ≠ 0 then
      (readSwitchT z adc s).map (fun r => (afterSwitch r.1, r.2))
    else
      (writeSwitchT z s).map (fun r => (afterSwitch r.1, r.2))
  else
    some (Outcome.looping s, [])

/-! ## Frames that differ in resetFlag only -/

/-- The state with `Header.Reset` set to `b` and nothing else changed. -/
def withReset (b : Bool) (s : State) : State :=
  { s with CommData := { s.CommData with Header := Header_setReset s.CommData.Header b } }

/-- A switch result with a function applied to its state. -/
def Switch.mapState (f : State → State) : Switch → Switch
  | Switch.brk dataCnt s => Switch.brk dataCnt (f s)
  | Switch.ret s => Switch.ret (f s)

/-- An outcome with a function applied to its state. -/
def Outcome.mapState (f : State → State) : Outcome → Outcome
  | Outcome.looping s => Outcome.looping (f s)
  | Outcome.returned s => Outcome.returned (f s)

/-! ## The header bit-fields: each assignment changes its own field only -/

@[simp] theorem Header_Command_setCommand (v : Nat) (x : Nat) :
    Header_Command (Header_setCommand v x) = (x % 256) := by
  unfold Header_Command Header_setCommand
  omega

@[simp] theorem Header_Read_setCommand (v : Nat) (x : Nat) :
    Header_Read (Header_setCommand v x) = Header_Read v := by
  unfold Header_Read Header_setCommand
  omega

@[simp] theorem Header_SizeInvalid_setCommand (v : Nat) (x : Nat) :
    Header_SizeInvalid (Header_setCommand v x) = Header_SizeInvalid v := by
  unfold Header_SizeInvalid Header_setCommand
  omega

@[simp] theorem Header_CommandInvalid_setCommand (v : Nat) (x : Nat) :
    Header_CommandInvalid (Header_setCommand v x) = Header_CommandInvalid v := by
  unfold Header_CommandInvalid Header_setCommand
  omega

@[simp] theorem Header_Reset_setCommand (v : Nat) (x : Nat) :
    Header_Reset (Header_setCommand v x) = Header_Reset v := by
  unfold Header_Reset Header_setCommand
  omega

@[simp] theorem Header_DataLength_setCommand (v : Nat) (x : Nat) :
    Header_DataLength (Header_setCommand v x) = Header_DataLength v := by
  unfold Header_DataLength Header_setCommand
  omega

@[simp] theorem Header_padding_setCommand (v : Nat) (x : Nat) :
    Header_padding (Header_setCommand v x) = Header_padding v := by
  unfold Header_padding Header_setCommand
  refine Prod.ext ?_ ?_ <;> simp only <;> omega

@[simp] theorem Header_Command_setRead (v : Nat) (x : Bool) :
    Header_Command (Header_setRead v x) = Header_Command v := by
  unfold Header_Command Header_setRead
  cases x <;> simp <;> omega

@[simp] theorem Header_Read_setRead (v : Nat) (x : Bool) :
    Header_Read (Header_setRead v x) = (if x then 1 else 0) := by
  unfold Header_Read Header_setRead
  cases x <;> simp <;> omega

@[simp] theorem Header_SizeInvalid_setRead (v : Nat) (x : Bool) :
    Header_SizeInvalid (Header_setRead v x) = Header_SizeInvalid v := by
  unfold Header_SizeInvalid Header_setRead
  cases x <;> simp <;> omega

@[simp] theorem Header_CommandInvalid_setRead (v : Nat) (x : Bool) :
    Header_CommandInvalid (Header_setRead v x) = Header_CommandInvalid v := by
  unfold Header_CommandInvalid Header_setRead
  cases x <;> simp <;> omega

@[simp] theorem Header_Reset_setRead (v : Nat) (x : Bool) :
    Header_Reset (Header_setRead v x) = Header_Reset v := by
  unfold Header_Reset Header_setRead
  cases x <;> simp <;> omega

@[simp] theorem Header_DataLength_setRead (v : Nat) (x : Bool) :
    Header_DataLength (Header_setRead v x) = Header_DataLength v := by
  unfold Header_DataLength Header_setRead
  cases x <;> simp <;> omega

@[simp] theorem Header_padding_setRead (v : Nat) (x : Bool) :
    Header_padding (Header_setRead v x) = Header_padding v := by
  unfold Header_padding Header_setRead
  cases x <;> refine Prod.ext ?_ ?_ <;> simp <;> omega

@[simp] theorem Header_Command_setSizeInvalid (v : Nat) (x : Bool) :
    Header_Command (Header_setSizeInvalid v x) = Header_Command v := by
  unfold Header_Command Header_setSizeInvalid
  cases x <;> simp <;> omega

@[simp] theorem Header_Read_setSizeInvalid (v : Nat) (x : Bool) :
    Header_Read (Header_setSizeInvalid v x) = Header_Read v := by
  unfold Header_Read Header_setSizeInvalid
  cases x <;> simp <;> omega

@[simp] theorem Header_SizeInvalid_setSizeInvalid (v : Nat) (x : Bool) :
    Header_SizeInvalid (Header_setSizeInvalid v x) = (if x then 1 else 0) := by
  unfold Header_SizeInvalid Header_setSizeInvalid
  cases x <;> simp <;> omega

@[simp] theorem Header_CommandInvalid_setSizeInvalid (v : Nat) (x : Bool) :
    Header_CommandInvalid (Header_setSizeInvalid v x) = Header_CommandInvalid v := by
  unfold Header_CommandInvalid Header_setSizeInvalid
  cases x <;> simp <;> omega

@[simp] theorem Header_Reset_setSizeInvalid (v : Nat) (x : Bool) :
    Header_Reset (Header_setSizeInvalid v x) = Header_Reset v := by
  unfold Header_Reset Header_setSizeInvalid
  cases x <;> simp <;> omega

@[simp] theorem Header_DataLength_setSizeInvalid (v : Nat) (x : Bool) :
    Header_DataLength (Header_setSizeInvalid v x) = Header_DataLength v := by
  unfold Header_DataLength Header_setSizeInvalid
  cases x <;> simp <;> omega

@[simp] theorem Header_padding_setSizeInvalid (v : Nat) (x : Bool) :
    Header_padding (Header_setSizeInvalid v x) = Header_padding v := by
  unfold Header_padding Header_setSizeInvalid
  cases x <;> refine Prod.ext ?_ ?_ <;> simp <;> omega

@[simp] theorem Header_Command_setCommandInvalid (v : Nat) (x : Bool) :
    Header_Command (Header_setCommandInvalid v x) = Header_Command v := by
  unfold Header_Command Header_setCommandInvalid
  cases x <;> simp <;> omega

@[simp] theorem Header_Read_setCommandInvalid (v : Nat) (x : Bool) :
    Header_Read (Header_setCommandInvalid v x) = Header_Read v := by
  unfold Header_Read Header_setCommandInvalid
  cases x <;> simp <;> omega

@[simp] theorem Header_SizeInvalid_setCommandInvalid (v : Nat) (x : Bool) :
    Header_SizeInvalid (Header_setCommandInvalid v x) = Header_SizeInvalid v := by
  unfold Header_SizeInvalid Header_setCommandInvalid
  cases x <;> simp <;> omega

@[simp] theorem Header_CommandInvalid_setCommandInvalid (v : Nat) (x : Bool) :
    Header_CommandInvalid (Header_setCommandInvalid v x) = (if x then 1 else 0) := by
  unfold Header_CommandInvalid Header_setCommandInvalid
  cases x <;> simp <;> omega

@[simp] theorem Header_Reset_setCommandInvalid (v : Nat) (x : Bool) :
    Header_Reset (Header_setCommandInvalid v x) = Header_Reset v := by
  unfold Header_Reset Header_setCommandInvalid
  cases x <;> simp <;> omega

@[simp] theorem Header_DataLength_setCommandInvalid (v : Nat) (x : Bool) :
    Header_DataLength (Header_setCommandInvalid v x) = Header_DataLength v := by
  unfold Header_DataLength Header_setCommandInvalid
  cases x <;> simp <;> omega

@[simp] theorem Header_padding_setCommandInvalid (v : Nat) (x : Bool) :
    Header_padding (Header_setCommandInvalid v x) = Header_padding v := by
  unfold Header_padding Header_setCommandInvalid
  cases x <;> refine Prod.ext ?_ ?_ <;> simp <;> omega

@[simp] theorem Header_Command_setReset (v : Nat) (x : Bool) :
    Header_Command (Header_setReset v x) = Header_Command v := by
  unfold Header_Command Header_setReset
  cases x <;> simp <;> omega

@[simp] theorem Header_Read_setReset (v : Nat) (x : Bool) :
    Header_Read (Header_setReset v x) = Header_Read v := by
  unfold Header_Read Header_setReset
  cases x <;> simp <;> omega

@[simp] theorem Header_SizeInvalid_setReset (v : Nat) (x : Bool) :
    Header_SizeInvalid (Header_setReset v x) = Header_SizeInvalid v := by
  unfold Header_SizeInvalid Header_setReset
  cases x <;> simp <;> omega

@[simp] theorem Header_CommandInvalid_setReset (v : Nat) (x : Bool) :
    Header_CommandInvalid (Header_setReset v x) = Header_CommandInvalid v := by
  unfold Header_CommandInvalid Header_setReset
  cases x <;> simp <;> omega

@[simp] theorem Header_Reset_setReset (v : Nat) (x : Bool) :
    Header_Reset (Header_setReset v x) = (if x then 1 else 0) := by
  unfold Header_Reset Header_setReset
  cases x <;> simp <;> omega

@[simp] theorem Header_DataLength_setReset (v : Nat) (x : Bool) :
    Header_DataLength (Header_setReset v x) = Header_DataLength v := by
  unfold Header_DataLength Header_setReset
  cases x <;> simp <;> omega

@[simp] theorem Header_padding_setReset (v : Nat) (x : Bool) :
    Header_padding (Header_setReset v x) = Header_padding v := by
  unfold Header_padding Header_setReset
  cases x <;> refine Prod.ext ?_ ?_ <;> simp <;> omega

@[simp] theorem Header_Command_setDataLength (v : Nat) (x : Nat) :
    Header_Command (Header_setDataLength v x) = Header_Command v := by
  unfold Header_Command Header_setDataLength
  omega

@[simp] theorem Header_Read_setDataLength (v : Nat) (x : Nat) :
    Header_Read (Header_setDataLength v x) = Header_Read v := by
  unfold Header_Read Header_setDataLength
  omega

@[simp] theorem Header_SizeInvalid_setDataLength (v : Nat) (x : Nat) :
    Header_SizeInvalid (Header_setDataLength v x) = Header_SizeInvalid v := by
  unfold Header_SizeInvalid Header_setDataLength
  omega

@[simp] theorem Header_CommandInvalid_setDataLength (v : Nat) (x : Nat) :
    Header_CommandInvalid (Header_setDataLength v x) = Header_CommandInvalid v := by
  unfold Header_CommandInvalid Header_setDataLength
  omega

@[simp] theorem Header_Reset_setDataLength (v : Nat) (x : Nat) :
    Header_Reset (Header_setDataLength v x) = Header_Reset v := by
  unfold Header_Reset Header_setDataLength
  omega

@[simp] theorem Header_DataLength_setDataLength (v : Nat) (x : Nat) :
    Header_DataLength (Header_setDataLength v x) = (x % 65536) := by
  unfold Header_DataLength Header_setDataLength
  omega

@[simp] theorem Header_padding_setDataLength (v : Nat) (x : Nat) :
    Header_padding (Header_setDataLength v x) = Header_padding v := by
  unfold Header_padding Header_setDataLength
  refine Prod.ext ?_ ?_ <;> simp only <;> omega

/-! ## Counted loops -/

/-- A counted loop over a size that fits the counter ends with the counter at the
size, and an invariant that every round of the body maintains holds at the end. -/
theorem forLoop_inv (size : Nat) (body : Nat → State → State) (P : Nat → State → Prop)
    (hsize : size < 65536)
    (hstep : ∀ i s, i < size → P i s → P (i + 1) (body i s)) :
    ∀ fuel cnt s, cnt ≤ size → size - cnt < fuel → P cnt s →
      ∃ t, forLoop size body fuel cnt s = some (size, t) ∧ P size t := by
  intro fuel
  induction fuel with
  | zero => intro cnt s _ h; omega
  | succ n ih =>
    intro cnt s hle hfuel hP
    by_cases hlt : cnt < size
    · have hmod : (cnt + 1) % 65536 = cnt + 1 := Nat.mod_eq_of_lt (by omega)
      have := ih (cnt + 1) (body cnt s) (by omega) (by omega) (hstep cnt s hlt hP)
      simpa [forLoop, hlt, hmod] using this
    · have hcs : cnt = size := by omega
      subst hcs
      exact ⟨s, by simp [forLoop], hP⟩

/-- A counted loop over a size that the counter cannot reach never ends: no
bound on the number of rounds is enough. -/
theorem forLoop_diverges (size : Nat) (body : Nat → State → State) (hsize : 65536 ≤ size) :
    ∀ fuel cnt s, cnt < 65536 → forLoop size body fuel cnt s = none := by
  intro fuel
  induction fuel with
  | zero => intro cnt s _; rfl
  | succ n ih =>
    intro cnt s hcnt
    have hlt : cnt < size := by omega
    have := ih ((cnt + 1) % 65536) (body cnt s) (Nat.mod_lt _ (by decide))
    simpa [forLoop, hlt] using this

/-- A loop that copies `size` bytes of a device record into `Data` from index
`off` on: it ends, returns `size`, and changes nothing but those bytes. -/
theorem copyIn_loop (size off : Nat) (src : Device → Nat → Byte) (hsize : size < 65536)
    (s : State) :
    ∃ t, forLoop size
        (fun dataCnt t =>
          { t with CommData :=
              { t.CommData with
                Data := setByte t.CommData.Data (dataCnt + off) (src t.dev dataCnt) } })
        loopFuel 0 s = some (size, t)
      ∧ t.dev = s.dev ∧ t.CommData.Header = s.CommData.Header
      ∧ ∀ j, t.CommData.Data j
          = if off ≤ j ∧ j < size + off then src s.dev (j - off) else s.CommData.Data j := by
  have h := forLoop_inv size
    (fun dataCnt t =>
      { t with CommData :=
          { t.CommData with
            Data := setByte t.CommData.Data (dataCnt + off) (src t.dev dataCnt) } })
    (fun i t => t.dev = s.dev ∧ t.CommData.Header = s.CommData.Header
      ∧ ∀ j, t.CommData.Data j
          = if off ≤ j ∧ j < i + off then src s.dev (j - off) else s.CommData.Data j)
    hsize
    (by
      rintro i t hi ⟨hd, hh, hdata⟩
      refine ⟨hd, hh, ?_⟩
      intro j
      simp only [setByte]
      by_cases hj : j = i + off
      · subst hj
        have h1 : off ≤ i + off ∧ i + off < i + 1 + off := ⟨by omega, by omega⟩
        simp [h1, hd]
      · rw [if_neg hj, hdata j]
        by_cases h2 : off ≤ j ∧ j < i + off
        · have h3 : off ≤ j ∧ j < i + 1 + off := ⟨h2.1, by omega⟩
          simp [h2, h3]
        · have h3 : ¬ (off ≤ j ∧ j < i + 1 + off) := by
            intro h; exact h2 ⟨h.1, by omega⟩
          simp [h2, h3])
    loopFuel 0 s (Nat.zero_le _) (by simp only [loopFuel]; omega)
    ⟨rfl, rfl, fun j => by
      have : ¬ (off ≤ j ∧ j < off) := by omega
      simp [this]⟩
  exact h

/-- The loop of the `CMD_KEYS` write: it ends, returns `size`, and changes
nothing but the first `size` bytes of `Keys_0`, which become those of `Data`. -/
theorem copyOut_loop (size : Nat) (hsize : size < 65536) (s : State) :
    ∃ t, forLoop size
        (fun dataCnt t =>
          { t with dev :=
              { t.dev with Keys_0 := setByte t.dev.Keys_0 dataCnt (t.CommData.Data dataCnt) } })
        loopFuel 0 s = some (size, t)
      ∧ t.CommData = s.CommData
      ∧ t.dev.version = s.dev.version ∧ t.dev.coreInfo = s.dev.coreInfo
      ∧ t.dev.leds = s.dev.leds ∧ t.dev.LED_R = s.dev.LED_R ∧ t.dev.LED_B = s.dev.LED_B
      ∧ ∀ j, t.dev.Keys_0 j = if j < size then s.CommData.Data j else s.dev.Keys_0 j := by
  have h := forLoop_inv size
    (fun dataCnt t =>
      { t with dev :=
          { t.dev with Keys_0 := setByte t.dev.Keys_0 dataCnt (t.CommData.Data dataCnt) } })
    (fun i t => t.CommData = s.CommData
      ∧ t.dev.version = s.dev.version ∧ t.dev.coreInfo = s.dev.coreInfo
      ∧ t.dev.leds = s.dev.leds ∧ t.dev.LED_R = s.dev.LED_R ∧ t.dev.LED_B = s.dev.LED_B
      ∧ ∀ j, t.dev.Keys_0 j = if j < i then s.CommData.Data j else s.dev.Keys_0 j)
    hsize
    (by
      rintro i t hi ⟨hc, hv, hci, hl, hr, hb, hk⟩
      refine ⟨hc, hv, hci, hl, hr, hb, ?_⟩
      intro j
      simp only [setByte]
      by_cases hj : j = i
      · subst hj
        simp [hc]
      · rw [if_neg hj, hk j]
        by_cases h2 : j < i
        · have h3 : j < i + 1 := by omega
          simp [h2, h3]
        · have h3 : ¬ j < i + 1 := by omega
          simp [h2, h3])
    loopFuel 0 s (Nat.zero_le _) (by simp only [loopFuel]; omega)
    ⟨rfl, rfl, rfl, rfl, rfl, rfl, fun j => by simp⟩
  exact h

/-! ## The two switches -/

/-- The read switch always breaks, with the byte count of the operation (reduced
to the width of `dataCnt`), the device untouched, and the header untouched but
for `CommandInvalid`, which is set when the command is not a known read. -/
theorem readSwitch_spec (z : Sizes) (hc : z.sizeof_coreInfo < 65536)
    (hk : z.sizeof_Keys_0 < 65536) (adc : Int) (s : State)
    (hr : Header_Read s.CommData.Header ≠ 0) :
    ∃ t, readSwitch z adc s
        = some (Switch.brk
            (transferCount z (Header_Read s.CommData.Header)
              (Header_Command s.CommData.Header) % 65536) t)
      ∧ t.dev = s.dev
      ∧ t.CommData.Header
          = if knownOperation (Header_Read s.CommData.Header)
                (Header_Command s.CommData.Header) = true
            then s.CommData.Header
            else Header_setCommandInvalid s.CommData.Header true := by
  unfold readSwitch transferCount knownOperation
  simp only [hr, ne_eq, not_false_eq_true, if_true]
  by_cases h1 : Header_Command s.CommData.Header = CMD_INFO_STACK
  · obtain ⟨t, ht, hd, hh, -⟩ := copyIn_loop z.sizeof_coreInfo 4 (fun d => d.coreInfo) hc
      { s with CommData := { s.CommData with Data := storeLE32 s.CommData.Data s.dev.version } }
    refine ⟨t, ?_, hd, ?_⟩
    · simp [h1, ht, Nat.add_comm]
    · simp [h1, hh]
  by_cases h2 : Header_Command s.CommData.Header = CMD_INFO_FIRMWARE
  · obtain ⟨t, ht, hd, hh, -⟩ := copyIn_loop sizeof_FirmwareInfo 0
      (fun _ => FirmwareInfo.byte) (by decide) s
    refine ⟨t, ?_, hd, ?_⟩
    · simp only [Nat.add_zero] at ht
      simp [h2, ht, sizeof_FirmwareInfo]
    · simp [h2, hh]
  by_cases h3 : Header_Command s.CommData.Header = CMD_KEYS
  · obtain ⟨t, ht, hd, hh, -⟩ := copyIn_loop z.sizeof_Keys_0 0 (fun d => d.Keys_0) hk s
    refine ⟨t, ?_, hd, ?_⟩
    · simp only [Nat.add_zero] at ht
      simp [h3, ht, Nat.mod_eq_of_lt hk]
    · simp [h3, hh]
  by_cases h4 : Header_Command s.CommData.Header = CMD_ADCVAL
  · exact ⟨{ s with CommData :=
        { s.CommData with Data := storeLE32 s.CommData.Data (int32Bits adc) } },
      by simp [h4], rfl, by simp [h4]⟩
  by_cases h5 : Header_Command s.CommData.Header = CMD_LEDS
  · exact ⟨{ s with CommData :=
        { s.CommData with Data := storeLE32 s.CommData.Data s.dev.leds } },
      by simp [h5], rfl, by simp [h5]⟩
  · exact ⟨markCommandInvalid s, by simp [h1, h2, h3, h4, h5], rfl,
      by simp [h1, h2, h3, h4, h5, markCommandInvalid]⟩

/-- The write switch, for a command other than `CMD_EXIT`, breaks with the byte
count of the operation, the frame data untouched, and the header untouched but
for `CommandInvalid`, which is set when the command is not a known write. -/
theorem writeSwitch_spec (z : Sizes) (hk : z.sizeof_Keys_0 < 65536) (s : State)
    (hr : Header_Read s.CommData.Header = 0)
    (hx : Header_Command s.CommData.Header ≠ CMD_EXIT) :
    ∃ t, writeSwitch z s
        = some (Switch.brk
            (transferCount z (Header_Read s.CommData.Header)
              (Header_Command s.CommData.Header) % 65536) t)
      ∧ t.CommData.Data = s.CommData.Data
      ∧ t.CommData.Header
          = if knownOperation (Header_Read s.CommData.Header)
                (Header_Command s.CommData.Header) = true
            then s.CommData.Header
            else Header_setCommandInvalid s.CommData.Header true := by
  unfold writeSwitch transferCount knownOperation
  simp only [hr, ne_eq, not_true_eq_false, if_false]
  by_cases h3 : Header_Command s.CommData.Header = CMD_KEYS
  · obtain ⟨t, ht, hcd, -⟩ := copyOut_loop z.sizeof_Keys_0 hk s
    refine ⟨t, ?_, by rw [hcd], ?_⟩
    · simp [h3, ht, Nat.mod_eq_of_lt hk]
    · simp [h3, hcd]
  by_cases h5 : Header_Command s.CommData.Header = CMD_LEDS
  · exact ⟨{ s with dev :=
        { s.dev with
          leds := loadLE32 s.CommData.Data
          LED_R := (loadLE32 s.CommData.Data &&& 0x00000001) != 0
          LED_B := (loadLE32 s.CommData.Data &&& 0x00000100) != 0 } },
      by simp [h5], rfl, by simp [h5]⟩
  · exact ⟨markCommandInvalid s, by simp [h3, h5, hx], rfl,
      by simp [h3, h5, hx, markCommandInvalid]⟩

/-! ## One pass -/

/-- A pass over an idle frame does nothing. -/
theorem pass_idle (z : Sizes) (adc : Int) (s : State)
    (h : Header_Command s.CommData.Header = CMD_IDLE) :
    Communicator_pass z adc s = some (Outcome.looping s) := by
  simp [Communicator_pass, h]

/-- A pass over a write of `CMD_EXIT` clears the command and returns. -/
theorem pass_exit (z : Sizes) (adc : Int) (s : State)
    (hr : Header_Read s.CommData.Header = 0)
    (hx : Header_Command s.CommData.Header = CMD_EXIT) :
    Communicator_pass z adc s
      = some (Outcome.returned
          { s with CommData :=
              { s.CommData with Header := Header_setCommand s.CommData.Header CMD_IDLE } }) := by
  simp [Communicator_pass, writeSwitch, afterSwitch, hr, hx]

/-- A pass over any other request runs the three completion statements on the
state its switch leaves. -/
theorem pass_serviced (z : Sizes) (hc : z.sizeof_coreInfo < 65536)
    (hk : z.sizeof_Keys_0 < 65536) (adc : Int) (s : State)
    (hidle : Header_Command s.CommData.Header ≠ CMD_IDLE)
    (hexit : ¬ (Header_Read s.CommData.Header = 0
      ∧ Header_Command s.CommData.Header = CMD_EXIT)) :
    ∃ t, Communicator_pass z adc s
        = some (Outcome.looping
            (complete (transferCount z (Header_Read s.CommData.Header)
              (Header_Command s.CommData.Header) % 65536) t))
      ∧ t.CommData.Header
          = if knownOperation (Header_Read s.CommData.Header)
                (Header_Command s.CommData.Header) = true
            then s.CommData.Header
            else Header_setCommandInvalid s.CommData.Header true := by
  by_cases hr : Header_Read s.CommData.Header = 0
  · have hx : Header_Command s.CommData.Header ≠ CMD_EXIT := fun h => hexit ⟨hr, h⟩
    obtain ⟨t, ht, -, hh⟩ := writeSwitch_spec z hk s hr hx
    exact ⟨t, by simp [Communicator_pass, hidle, hr, ht, afterSwitch], hh⟩
  · obtain ⟨t, ht, -, hh⟩ := readSwitch_spec z hc hk adc s hr
    exact ⟨t, by simp [Communicator_pass, hidle, hr, ht, afterSwitch], hh⟩

/-- The read switch is never left by `return`. -/
theorem readSwitch_brk (z : Sizes) (adc : Int) (s t : State) :
    readSwitch z adc s ≠ some (Switch.ret t) := by
  unfold readSwitch
  simp only
  split_ifs <;> simp

/-- The write switch is left by `return` for `CMD_EXIT` only. -/
theorem writeSwitch_ret (z : Sizes) (s t : State)
    (h : writeSwitch z s = some (Switch.ret t)) :
    Header_Command s.CommData.Header = CMD_EXIT := by
  unfold writeSwitch at h
  simp only at h
  split_ifs at h with h3 h5 hx <;> simp at h
  exact hx

@[simp] theorem complete_Command (n : Nat) (s : State) :
    Header_Command (complete n s).CommData.Header = CMD_IDLE := by
  simp [complete]

@[simp] theorem complete_DataLength (n : Nat) (s : State) :
    Header_DataLength (complete n s).CommData.Header = n % 65536 := by
  simp [complete]

@[simp] theorem complete_SizeInvalid (n : Nat) (s : State) :
    Header_SizeInvalid (complete n s).CommData.Header
      = if Header_DataLength s.CommData.Header = n then 0 else 1 := by
  by_cases h : Header_DataLength s.CommData.Header = n <;> simp [complete, h]

@[simp] theorem complete_CommandInvalid (n : Nat) (s : State) :
    Header_CommandInvalid (complete n s).CommData.Header
      = Header_CommandInvalid s.CommData.Header := by
  simp [complete]

@[simp] theorem complete_Data (n : Nat) (s : State) :
    (complete n s).CommData.Data = s.CommData.Data := rfl

@[simp] theorem complete_dev (n : Nat) (s : State) : (complete n s).dev = s.dev := rfl

/-! ## The claims -/

/-- C1. Completion signal: the command field is Idle after the start-up store
to the header and at the end of every pass, whatever the frame holds and whatever
the device state is (an idle frame, a serviced read or write request, known or
not, with a matching dataLength or not, and the pass that services Exit). The
two record sizes must fit the 16-bit loop counter, or the copy loops never end. -/
theorem command_idle_after_init_and_every_pass (z : Sizes)
    (hc : z.sizeof_coreInfo < 65536) (hk : z.sizeof_Keys_0 < 65536)
    (adc : Int) (s : State) :
    Header_Command (Communicator_init s).CommData.Header = CMD_IDLE
      ∧ ∃ o, Communicator_pass z adc s = some o
          ∧ Header_Command o.state.CommData.Header = CMD_IDLE := by
  refine ⟨show 0x00004000 % 256 = 0 from rfl, ?_⟩
  by_cases hidle : Header_Command s.CommData.Header = CMD_IDLE
  · exact ⟨_, pass_idle z adc s hidle, hidle⟩
  by_cases hexit : Header_Read s.CommData.Header = 0
      ∧ Header_Command s.CommData.Header = CMD_EXIT
  · exact ⟨_, pass_exit z adc s hexit.1 hexit.2, by simp [Outcome.state]⟩
  · obtain ⟨t, ht, -⟩ := pass_serviced z hc hk adc s hidle hexit
    exact ⟨_, ht, by simp [Outcome.state]⟩

/-- C1, at a device whose stack-info record has 40 bytes and whose key record
has 64, and a frame asking to read the keys. -/
theorem command_idle_after_init_and_every_pass_witness :
    (40 < 65536 ∧ 64 < 65536)
      ∧ (Header_Command (Communicator_init
            ⟨⟨0x00400103, fun _ => 0⟩, ⟨1, fun _ => 0, fun _ => 7, 0, false, false⟩⟩).CommData.Header
          = CMD_IDLE
        ∧ ∃ o, Communicator_pass ⟨40, 64⟩ 0
            ⟨⟨0x00400103, fun _ => 0⟩, ⟨1, fun _ => 0, fun _ => 7, 0, false, false⟩⟩ = some o
          ∧ Header_Command o.state.CommData.Header = CMD_IDLE) :=
  ⟨⟨by decide, by decide⟩,
    command_idle_after_init_and_every_pass ⟨40, 64⟩ (by decide) (by decide) 0
      ⟨⟨0x00400103, fun _ => 0⟩, ⟨1, fun _ => 0, fun _ => 7, 0, false, false⟩⟩⟩

/-- C2. Size-mismatch flagging: after a pass over a non-idle request other than
a write of Exit, sizeInvalid is set exactly when the dataLength the request came
in with differs from the byte count of the operation, and dataLength holds that
byte count. The record sizes must leave the byte counts within 16 bits. -/
theorem size_mismatch_flagged (z : Sizes)
    (hc : z.sizeof_coreInfo + 4 < 65536) (hk : z.sizeof_Keys_0 < 65536)
    (adc : Int) (s : State)
    (hidle : Header_Command s.CommData.Header ≠ CMD_IDLE)
    (hexit : ¬ (Header_Read s.CommData.Header = 0
      ∧ Header_Command s.CommData.Header = CMD_EXIT)) :
    ∃ t, Communicator_pass z adc s = some (Outcome.looping t)
      ∧ (Header_SizeInvalid t.CommData.Header = 1
          ↔ Header_DataLength s.CommData.Header
              ≠ transferCount z (Header_Read s.CommData.Header)
                  (Header_Command s.CommData.Header))
      ∧ Header_DataLength t.CommData.Header
          = transferCount z (Header_Read s.CommData.Header)
              (Header_Command s.CommData.Header) := by
  obtain ⟨t, ht, hh⟩ := pass_serviced z (by omega) hk adc s hidle hexit
  have hlt : transferCount z (Header_Read s.CommData.Header)
      (Header_Command s.CommData.Header) < 65536 := by
    have h12 : sizeof_FirmwareInfo = 12 := rfl
    unfold transferCount
    split_ifs <;> omega
  have hdl : Header_DataLength t.CommData.Header = Header_DataLength s.CommData.Header := by
    rw [hh]; split_ifs <;> simp
  refine ⟨_, ht, ?_, ?_⟩
  · rw [complete_SizeInvalid, hdl, Nat.mod_eq_of_lt hlt]
    split_ifs with h <;> simp [h]
  · simp [Nat.mod_eq_of_lt hlt]

/-- C2, at the request of the protocol description: a read of the firmware
metadata that comes in with dataLength 1 ends with sizeInvalid set and
dataLength 12. -/
theorem size_mismatch_flagged_witness :
    (40 + 4 < 65536 ∧ 64 < 65536
      ∧ Header_Command 0x00010102 ≠ CMD_IDLE
      ∧ ¬ (Header_Read 0x00010102 = 0 ∧ Header_Command 0x00010102 = CMD_EXIT))
      ∧ ∃ t, Communicator_pass ⟨40, 64⟩ 0
            ⟨⟨0x00010102, fun _ => 0⟩, ⟨1, fun _ => 0, fun _ => 7, 0, false, false⟩⟩
          = some (Outcome.looping t)
        ∧ Header_SizeInvalid t.CommData.Header = 1
        ∧ Header_DataLength t.CommData.Header = 12 := by
  have hyp : Header_Command 0x00010102 ≠ CMD_IDLE
      ∧ ¬ (Header_Read 0x00010102 = 0 ∧ Header_Command 0x00010102 = CMD_EXIT) := by
    decide
  obtain ⟨t, ht, hs, hd⟩ := size_mismatch_flagged ⟨40, 64⟩ (by decide) (by decide) 0
    ⟨⟨0x00010102, fun _ => 0⟩, ⟨1, fun _ => 0, fun _ => 7, 0, false, false⟩⟩ hyp.1 hyp.2
  refine ⟨⟨by decide, by decide, hyp.1, hyp.2⟩, t, ht, hs.2 (by decide), ?_⟩
  rw [hd]
  decide

/-- C3. Unknown command flagging: for a command outside the enumeration
0, 1, 2, 3, 4, 5, 0xFF, in either direction and with any data, dataLength and
device state, the pass ends with commandInvalid set, dataLength 0 and the
command Idle. -/
theorem unknown_command_flagged (z : Sizes) (adc : Int) (s : State)
    (hcmd : Header_Command s.CommData.Header
      ∉ [CMD_IDLE, CMD_INFO_STACK, CMD_INFO_FIRMWARE, CMD_KEYS, CMD_ADCVAL, CMD_LEDS,
          CMD_EXIT]) :
    ∃ t, Communicator_pass z adc s = some (Outcome.looping t)
      ∧ Header_CommandInvalid t.CommData.Header = 1
      ∧ Header_DataLength t.CommData.Header = 0
      ∧ Header_Command t.CommData.Header = CMD_IDLE := by
  simp only [List.mem_cons, List.mem_singleton, List.not_mem_nil, or_false, not_or] at hcmd
  obtain ⟨h0, h1, h2, h3, h4, h5, hx⟩ := hcmd
  refine ⟨complete 0 (markCommandInvalid s), ?_, ?_, ?_, ?_⟩
  · by_cases hr : Header_Read s.CommData.Header = 0
    · simp [Communicator_pass, writeSwitch, afterSwitch, h0, h3, h5, hx, hr]
    · simp [Communicator_pass, readSwitch, afterSwitch, h0, h1, h2, h3, h4, h5, hr]
  · simp [markCommandInvalid]
  · simp
  · simp

/-- C3, at the command value 0x42 asked as a read with dataLength 9. -/
theorem unknown_command_flagged_witness :
    Header_Command 0x00090142
        ∉ [CMD_IDLE, CMD_INFO_STACK, CMD_INFO_FIRMWARE, CMD_KEYS, CMD_ADCVAL, CMD_LEDS,
            CMD_EXIT]
      ∧ ∃ t, Communicator_pass ⟨40, 64⟩ 0
            ⟨⟨0x00090142, fun _ => 0⟩, ⟨1, fun _ => 0, fun _ => 7, 0, false, false⟩⟩
          = some (Outcome.looping t)
        ∧ Header_CommandInvalid t.CommData.Header = 1
        ∧ Header_DataLength t.CommData.Header = 0
        ∧ Header_Command t.CommData.Header = CMD_IDLE :=
  ⟨by decide,
    unknown_command_flagged ⟨40, 64⟩ 0
      ⟨⟨0x00090142, fun _ => 0⟩, ⟨1, fun _ => 0, fun _ => 7, 0, false, false⟩⟩ (by decide)⟩

/-- A pass over a write of the keys copies the first `sizeof(Keys_0)` bytes of
`Data` into `Keys_0` and reports that size. -/
theorem pass_write_keys (z : Sizes) (hk : z.sizeof_Keys_0 < 65536) (adc : Int) (s : State)
    (hcmd : Header_Command s.CommData.Header = CMD_KEYS)
    (hwr : Header_Read s.CommData.Header = 0) :
    ∃ t, Communicator_pass z adc s = some (Outcome.looping t)
      ∧ Header_DataLength t.CommData.Header = z.sizeof_Keys_0
      ∧ t.CommData.Data = s.CommData.Data
      ∧ ∀ j, j < z.sizeof_Keys_0 → t.dev.Keys_0 j = s.CommData.Data j := by
  obtain ⟨t, ht, hcd, -, -, -, -, -, hkeys⟩ := copyOut_loop z.sizeof_Keys_0 hk s
  refine ⟨complete z.sizeof_Keys_0 t, ?_, ?_, ?_, ?_⟩
  · simp [Communicator_pass, writeSwitch, afterSwitch, hcmd, hwr, ht]
  · simp [Nat.mod_eq_of_lt hk]
  · simp [hcd]
  · intro j hj
    simp [hkeys j, hj]

/-- A pass over a read of the keys copies the first `sizeof(Keys_0)` bytes of
`Keys_0` into `Data` and reports that size. -/
theorem pass_read_keys (z : Sizes) (hk : z.sizeof_Keys_0 < 65536) (adc : Int) (s : State)
    (hcmd : Header_Command s.CommData.Header = CMD_KEYS)
    (hrd : Header_Read s.CommData.Header ≠ 0) :
    ∃ t, Communicator_pass z adc s = some (Outcome.looping t)
      ∧ Header_DataLength t.CommData.Header = z.sizeof_Keys_0
      ∧ t.dev = s.dev
      ∧ ∀ j, j < z.sizeof_Keys_0 → t.CommData.Data j = s.dev.Keys_0 j := by
  obtain ⟨t, ht, hd, hh, hdata⟩ := copyIn_loop z.sizeof_Keys_0 0 (fun d => d.Keys_0) hk s
  simp only [Nat.add_zero] at ht
  refine ⟨complete z.sizeof_Keys_0 t, ?_, ?_, ?_, ?_⟩
  · simp [Communicator_pass, readSwitch, afterSwitch, hcmd, hrd, ht]
  · simp [Nat.mod_eq_of_lt hk]
  · simp [hd]
  · intro j hj
    simp [hdata j, hj]

/-- C4. Round-trip key write/read: when the key record has at most 124 bytes,
for every byte sequence k of that length, servicing a Keys write whose data
starts with k and then a Keys read (whatever else the frame of the second request
holds) leaves k in the first bytes of data, and dataLength is the size of the key
record after each of the two exchanges. -/
theorem keys_write_read_round_trip (z : Sizes) (hK : z.sizeof_Keys_0 ≤ Data_SIZE)
    (k : List Byte) (hlen : k.length = z.sizeof_Keys_0)
    (adc1 adc2 : Int) (s : State)
    (hcmd : Header_Command s.CommData.Header = CMD_KEYS)
    (hwr : Header_Read s.CommData.Header = 0)
    (hdata : (List.range k.length).map s.CommData.Data = k)
    (f : CommData_t)
    (hcmd2 : Header_Command f.Header = CMD_KEYS)
    (hrd : Header_Read f.Header ≠ 0) :
    ∃ t, Communicator_pass z adc1 s = some (Outcome.looping t)
      ∧ Header_DataLength t.CommData.Header = z.sizeof_Keys_0
      ∧ ∃ u, Communicator_pass z adc2 ⟨f, t.dev⟩ = some (Outcome.looping u)
        ∧ Header_DataLength u.CommData.Header = z.sizeof_Keys_0
        ∧ (List.range k.length).map u.CommData.Data = k := by
  have hk : z.sizeof_Keys_0 < 65536 := by
    have : Data_SIZE = 124 := rfl
    omega
  obtain ⟨t, ht, hlt, -, hkeys⟩ := pass_write_keys z hk adc1 s hcmd hwr
  obtain ⟨u, hu, hlu, -, hback⟩ := pass_read_keys z hk adc2 ⟨f, t.dev⟩ hcmd2 hrd
  refine ⟨t, ht, hlt, u, hu, hlu, ?_⟩
  rw [← hdata, List.length_map, List.length_range]
  apply List.map_congr_left
  intro i hi
  have hi2 : i < z.sizeof_Keys_0 := by
    rw [← hlen]; exact List.mem_range.mp hi
  rw [hback i hi2, hkeys i hi2]

/-- C4, at a key record of three bytes and the key 17, 34, 51. -/
theorem keys_write_read_round_trip_witness :
    ((3 ≤ Data_SIZE) ∧ [(17 : Byte), 34, 51].length = 3
      ∧ Header_Command 0x00030003 = CMD_KEYS ∧ Header_Read 0x00030003 = 0
      ∧ (List.range [(17 : Byte), 34, 51].length).map
          (fun i => if i = 0 then (17 : Byte) else if i = 1 then 34 else 51)
          = [17, 34, 51]
      ∧ Header_Command 0x00000103 = CMD_KEYS ∧ Header_Read 0x00000103 ≠ 0)
      ∧ ∃ t, Communicator_pass ⟨40, 3⟩ 0
            ⟨⟨0x00030003, fun i => if i = 0 then (17 : Byte) else if i = 1 then 34 else 51⟩,
              ⟨1, fun _ => 0, fun _ => 7, 0, false, false⟩⟩ = some (Outcome.looping t)
        ∧ Header_DataLength t.CommData.Header = 3
        ∧ ∃ u, Communicator_pass ⟨40, 3⟩ 5 ⟨⟨0x00000103, fun _ => 0⟩, t.dev⟩
              = some (Outcome.looping u)
          ∧ Header_DataLength u.CommData.Header = 3
          ∧ (List.range [(17 : Byte), 34, 51].length).map u.CommData.Data = [17, 34, 51] :=
  ⟨⟨by decide, by decide, by decide, by decide, by decide, by decide, by decide⟩,
    keys_write_read_round_trip ⟨40, 3⟩ (by decide) [17, 34, 51] (by decide) 0 5
      ⟨⟨0x00030003, fun i => if i = 0 then (17 : Byte) else if i = 1 then 34 else 51⟩,
        ⟨1, fun _ => 0, fun _ => 7, 0, false, false⟩⟩
      (by decide) (by decide) (by decide) ⟨0x00000103, fun _ => 0⟩ (by decide) (by decide)⟩

/-- C5. Idempotent idle: from a frame whose command is Idle, any number of
polls leaves the whole state as it was: data, dataLength, sizeInvalid and
commandInvalid, the rest of the header, and the keys, the indicator mask and the
outputs. -/
theorem idle_polls_change_nothing (z : Sizes) (adc : Nat → Int) (n : Nat) (s : State)
    (hidle : Header_Command s.CommData.Header = CMD_IDLE) :
    Communicator_polls z adc n s = some (Outcome.looping s) := by
  induction n with
  | zero => rfl
  | succ m ih => simp [Communicator_polls, pass_idle z (adc m) s hidle, ih]

/-- C5, at five polls of a frame whose header is 0x00074000. -/
theorem idle_polls_change_nothing_witness :
    Header_Command 0x00074000 = CMD_IDLE
      ∧ Communicator_polls ⟨40, 64⟩ (fun _ => 3) 5
          ⟨⟨0x00074000, fun _ => 9⟩, ⟨1, fun _ => 0, fun _ => 7, 0x101, true, false⟩⟩
        = some (Outcome.looping
            ⟨⟨0x00074000, fun _ => 9⟩, ⟨1, fun _ => 0, fun _ => 7, 0x101, true, false⟩⟩) :=
  ⟨by decide,
    idle_polls_change_nothing ⟨40, 64⟩ (fun _ => 3) 5
      ⟨⟨0x00074000, fun _ => 9⟩, ⟨1, fun _ => 0, fun _ => 7, 0x101, true, false⟩⟩ (by decide)⟩

/-- C6. Exit terminates the loop: for a frame whose command is Exit asked as a
write, with any data, dataLength and device state, the pass returns to the caller
of the dispatcher with the command Idle and with the data bytes (all 124 of
them) and the device state as they were. -/
theorem exit_returns_with_data_unaltered (z : Sizes) (adc : Int) (s : State)
    (hcmd : Header_Command s.CommData.Header = CMD_EXIT)
    (hwr : Header_Read s.CommData.Header = 0) :
    ∃ t, Communicator_pass z adc s = some (Outcome.returned t)
      ∧ Header_Command t.CommData.Header = CMD_IDLE
      ∧ (∀ i, i < Data_SIZE → t.CommData.Data i = s.CommData.Data i)
      ∧ t.CommData.Data = s.CommData.Data
      ∧ t.dev = s.dev :=
  ⟨_, pass_exit z adc s hwr hcmd, by simp, fun _ _ => rfl, rfl, rfl⟩

/-- C6, at the frame header 0x000500FF. -/
theorem exit_returns_with_data_unaltered_witness :
    (Header_Command 0x000500FF = CMD_EXIT ∧ Header_Read 0x000500FF = 0)
      ∧ ∃ t, Communicator_pass ⟨40, 64⟩ 0
            ⟨⟨0x000500FF, fun _ => 9⟩, ⟨1, fun _ => 0, fun _ => 7, 0x101, true, false⟩⟩
          = some (Outcome.returned t)
        ∧ Header_Command t.CommData.Header = CMD_IDLE
        ∧ (∀ i, i < Data_SIZE → t.CommData.Data i = (fun _ => 9 : Nat → Byte) i)
        ∧ t.CommData.Data = (fun _ => 9)
        ∧ t.dev = ⟨1, fun _ => 0, fun _ => 7, 0x101, true, false⟩ :=
  ⟨⟨by decide, by decide⟩,
    exit_returns_with_data_unaltered ⟨40, 64⟩ 0
      ⟨⟨0x000500FF, fun _ => 9⟩, ⟨1, fun _ => 0, fun _ => 7, 0x101, true, false⟩⟩
      (by decide) (by decide)⟩

/-- C7. Exit is the only way out: a pass returns to the caller of the
dispatcher exactly when the frame it finds has the command Exit with readFlag
clear; on every other frame (idle, any other command in either direction, Exit
with readFlag set) it does not return. -/
theorem pass_returns_iff_exit_write (z : Sizes) (adc : Int) (s : State) :
    (∃ t, Communicator_pass z adc s = some (Outcome.returned t))
      ↔ (Header_Command s.CommData.Header = CMD_EXIT
          ∧ Header_Read s.CommData.Header = 0) := by
  constructor
  · rintro ⟨t, ht⟩
    unfold Communicator_pass at ht
    split_ifs at ht with hidle hr
    · rcases hsw : readSwitch z adc s with _ | sw
      · simp [hsw] at ht
      · cases sw with
        | brk n u => simp [hsw, afterSwitch] at ht
        | ret u => exact absurd hsw (readSwitch_brk z adc s u)
    · rcases hsw : writeSwitch z s with _ | sw
      · simp [hsw] at ht
      · cases sw with
        | brk n u => simp [hsw, afterSwitch] at ht
        | ret u => exact ⟨writeSwitch_ret z s u hsw, not_not.mp hr⟩
    · simp at ht
  · rintro ⟨hcmd, hwr⟩
    exact ⟨_, pass_exit z adc s hwr hcmd⟩

/-- Masking with a single bit and comparing with 0 tests that bit. -/
theorem and_two_pow_ne_zero (x n : Nat) : ((x &&& 2 ^ n) != 0) = x.testBit n := by
  cases hb : x.testBit n
  · have hz : x &&& 2 ^ n = 0 := by
      apply Nat.zero_of_testBit_eq_false
      intro i
      rw [Nat.testBit_and, Nat.testBit_two_pow]
      by_cases hi : n = i
      · subst hi; simp [hb]
      · simp [hi]
    simp [hz]
  · have hne : x &&& 2 ^ n ≠ 0 := by
      intro hz
      have h1 : (x &&& 2 ^ n).testBit n = true := by
        rw [Nat.testBit_and, Nat.testBit_two_pow_self, hb]; rfl
      rw [hz, Nat.zero_testBit] at h1
      exact Bool.noConfusion h1
    simp [hne]

/-- C8. Indicator write takes immediate effect: after the pass over a Leds
write, whatever dataLength it came in with, the indicator mask is the
little-endian 32-bit value of the first four data bytes, line A (the red pin) is
on exactly when bit 0 of that value is set, line B (the blue pin) exactly when
bit 8 is set, dataLength is 4 and the command is Idle. -/
theorem leds_write_takes_effect (z : Sizes) (adc : Int) (s : State)
    (hcmd : Header_Command s.CommData.Header = CMD_LEDS)
    (hwr : Header_Read s.CommData.Header = 0) :
    ∃ t, Communicator_pass z adc s = some (Outcome.looping t)
      ∧ t.dev.leds
          = (s.CommData.Data 0).val + 256 * (s.CommData.Data 1).val
            + 65536 * (s.CommData.Data 2).val + 16777216 * (s.CommData.Data 3).val
      ∧ t.dev.LED_R = t.dev.leds.testBit 0
      ∧ t.dev.LED_B = t.dev.leds.testBit 8
      ∧ Header_DataLength t.CommData.Header = 4
      ∧ Header_Command t.CommData.Header = CMD_IDLE := by
  refine ⟨complete 4
    { s with dev :=
        { s.dev with
          leds := loadLE32 s.CommData.Data
          LED_R := (loadLE32 s.CommData.Data &&& 0x00000001) != 0
          LED_B := (loadLE32 s.CommData.Data &&& 0x00000100) != 0 } }, ?_, ?_, ?_, ?_, ?_, ?_⟩
  · simp [Communicator_pass, writeSwitch, afterSwitch, hcmd, hwr]
  · rfl
  · exact and_two_pow_ne_zero (loadLE32 s.CommData.Data) 0
  · exact and_two_pow_ne_zero (loadLE32 s.CommData.Data) 8
  · simp
  · simp

/-- C8, at the request of the protocol description: a mask with bit 0 set and
bit 8 clear (data bytes 1, 0, 0, 0, and a dataLength of 9) puts line A on and
line B off. -/
theorem leds_write_takes_effect_witness :
    (Header_Command 0x00090005 = CMD_LEDS ∧ Header_Read 0x00090005 = 0)
      ∧ ∃ t, Communicator_pass ⟨40, 64⟩ 0
            ⟨⟨0x00090005, fun i => if i = 0 then 1 else 0⟩,
              ⟨1, fun _ => 0, fun _ => 7, 0x100, false, true⟩⟩ = some (Outcome.looping t)
        ∧ t.dev.leds = 1
        ∧ t.dev.LED_R = true
        ∧ t.dev.LED_B = false
        ∧ Header_DataLength t.CommData.Header = 4
        ∧ Header_Command t.CommData.Header = CMD_IDLE := by
  obtain ⟨t, ht, hl, hr, hb, hd, hc⟩ := leds_write_takes_effect ⟨40, 64⟩ 0
    ⟨⟨0x00090005, fun i => if i = 0 then 1 else 0⟩,
      ⟨1, fun _ => 0, fun _ => 7, 0x100, false, true⟩⟩ (by decide) (by decide)
  have h1 : t.dev.leds = 1 := by rw [hl]; decide
  refine ⟨⟨by decide, by decide⟩, t, ht, h1, ?_, ?_, hd, hc⟩
  · rw [hr, h1]; decide
  · rw [hb, h1]; decide

/-- C9 as stated fails: a Leds read (a known operation) that finds the
commandInvalid bit set on entry ends with the bit still set. -/
theorem commandInvalid_entry_value_counterexample :
    knownOperation (Header_Read 0x00042105) (Header_Command 0x00042105) = true
      ∧ Header_CommandInvalid 0x00042105 = 1
      ∧ (Communicator_pass ⟨40, 64⟩ 0
            ⟨⟨0x00042105, fun _ => 0⟩, ⟨1, fun _ => 0, fun _ => 7, 0x101, true, true⟩⟩).map
          (fun o => (o.exited, Header_Command o.state.CommData.Header,
            Header_CommandInvalid o.state.CommData.Header))
        = some (false, CMD_IDLE, 1) := by
  decide

/-- C9, amended. The dispatcher only ever sets commandInvalid: after the pass
over a non-idle request the bit is set exactly when the command did not match a
known operation for the selected direction or the bit was already set on entry;
so after a recognised command it is clear when it was clear on entry. The two
record sizes must fit the 16-bit loop counter for the pass to end. -/
theorem commandInvalid_set_never_cleared (z : Sizes)
    (hc : z.sizeof_coreInfo < 65536) (hk : z.sizeof_Keys_0 < 65536)
    (adc : Int) (s : State)
    (hidle : Header_Command s.CommData.Header ≠ CMD_IDLE) :
    ∃ o, Communicator_pass z adc s = some o
      ∧ (Header_CommandInvalid o.state.CommData.Header = 1
          ↔ (knownOperation (Header_Read s.CommData.Header)
                (Header_Command s.CommData.Header) = false
              ∨ Header_CommandInvalid s.CommData.Header = 1)) := by
  by_cases hexit : Header_Read s.CommData.Header = 0
      ∧ Header_Command s.CommData.Header = CMD_EXIT
  · refine ⟨_, pass_exit z adc s hexit.1 hexit.2, ?_⟩
    simp [Outcome.state, knownOperation, hexit.1, hexit.2]
  · obtain ⟨t, ht, hh⟩ := pass_serviced z hc hk adc s hidle hexit
    refine ⟨_, ht, ?_⟩
    simp only [Outcome.state, complete_CommandInvalid, hh]
    cases hkn : knownOperation (Header_Read s.CommData.Header)
      (Header_Command s.CommData.Header) <;> simp

/-- C9 amended, at a Leds read that finds commandInvalid clear. -/
theorem commandInvalid_set_never_cleared_witness :
    (40 < 65536 ∧ 64 < 65536 ∧ Header_Command 0x00040105 ≠ CMD_IDLE)
      ∧ ∃ o, Communicator_pass ⟨40, 64⟩ 0
            ⟨⟨0x00040105, fun _ => 0⟩, ⟨1, fun _ => 0, fun _ => 7, 0x101, true, true⟩⟩ = some o
        ∧ (Header_CommandInvalid o.state.CommData.Header = 1
            ↔ (knownOperation (Header_Read 0x00040105) (Header_Command 0x00040105) = false
                ∨ Header_CommandInvalid 0x00040105 = 1)) :=
  ⟨⟨by decide, by decide, by decide⟩,
    commandInvalid_set_never_cleared ⟨40, 64⟩ (by decide) (by decide) 0
      ⟨⟨0x00040105, fun _ => 0⟩, ⟨1, fun _ => 0, fun _ => 7, 0x101, true, true⟩⟩ (by decide)⟩

/-- C10. Wire layout round trip. With the header read as a 32-bit word,
command is bits 0-7, readFlag bit 8, sizeInvalid bit 12, commandInvalid bit 13,
resetFlag bit 14 and dataLength bits 16-31, and the padding bits of a packed
header are clear; packing field values (a command below 256, a dataLength below
65536, four flags) into a word and extracting each field gives the same values
back; in any header word an assignment to one field leaves every other field and
the padding bits as they were; and the frame is the 4 header bytes, least
significant first, followed by the 124 data bytes, 128 bytes in all. -/
theorem header_layout_round_trip (command dataLength : Nat)
    (read sizeInvalid commandInvalid reset : Bool)
    (hcommand : command < 256) (hlength : dataLength < 65536)
    (v x : Nat) (b : Bool) (c : CommData_t) :
    (Header_pack command read sizeInvalid commandInvalid reset dataLength
        = command + 2 ^ 8 * read.toNat + 2 ^ 12 * sizeInvalid.toNat
          + 2 ^ 13 * commandInvalid.toNat + 2 ^ 14 * reset.toNat + 2 ^ 16 * dataLength
      ∧ Header_pack command read sizeInvalid commandInvalid reset dataLength < 2 ^ 32)
    ∧ (Header_Command v = v % 2 ^ 8
      ∧ v.testBit 8 = decide (Header_Read v = 1)
      ∧ v.testBit 12 = decide (Header_SizeInvalid v = 1)
      ∧ v.testBit 13 = decide (Header_CommandInvalid v = 1)
      ∧ v.testBit 14 = decide (Header_Reset v = 1)
      ∧ Header_DataLength v = v / 2 ^ 16 % 2 ^ 16)
    ∧ (Header_Command (Header_pack command read sizeInvalid commandInvalid reset dataLength)
        = command
      ∧ Header_Read (Header_pack command read sizeInvalid commandInvalid reset dataLength)
        = read.toNat
      ∧ Header_SizeInvalid
          (Header_pack command read sizeInvalid commandInvalid reset dataLength)
        = sizeInvalid.toNat
      ∧ Header_CommandInvalid
          (Header_pack command read sizeInvalid commandInvalid reset dataLength)
        = commandInvalid.toNat
      ∧ Header_Reset (Header_pack command read sizeInvalid commandInvalid reset dataLength)
        = reset.toNat
      ∧ Header_DataLength
          (Header_pack command read sizeInvalid commandInvalid reset dataLength)
        = dataLength
      ∧ Header_padding (Header_pack command read sizeInvalid commandInvalid reset dataLength)
        = (0, 0))
    ∧ (Header_Read (Header_setCommand v x) = Header_Read v
      ∧ Header_SizeInvalid (Header_setCommand v x) = Header_SizeInvalid v
      ∧ Header_CommandInvalid (Header_setCommand v x) = Header_CommandInvalid v
      ∧ Header_Reset (Header_setCommand v x) = Header_Reset v
      ∧ Header_DataLength (Header_setCommand v x) = Header_DataLength v
      ∧ Header_padding (Header_setCommand v x) = Header_padding v)
    ∧ (Header_Command (Header_setRead v b) = Header_Command v
      ∧ Header_SizeInvalid (Header_setRead v b) = Header_SizeInvalid v
      ∧ Header_CommandInvalid (Header_setRead v b) = Header_CommandInvalid v
      ∧ Header_Reset (Header_setRead v b) = Header_Reset v
      ∧ Header_DataLength (Header_setRead v b) = Header_DataLength v
      ∧ Header_padding (Header_setRead v b) = Header_padding v)
    ∧ (Header_Command (Header_setSizeInvalid v b) = Header_Command v
      ∧ Header_Read (Header_setSizeInvalid v b) = Header_Read v
      ∧ Header_CommandInvalid (Header_setSizeInvalid v b) = Header_CommandInvalid v
      ∧ Header_Reset (Header_setSizeInvalid v b) = Header_Reset v
      ∧ Header_DataLength (Header_setSizeInvalid v b) = Header_DataLength v
      ∧ Header_padding (Header_setSizeInvalid v b) = Header_padding v)
    ∧ (Header_Command (Header_setCommandInvalid v b) = Header_Command v
      ∧ Header_Read (Header_setCommandInvalid v b) = Header_Read v
      ∧ Header_SizeInvalid (Header_setCommandInvalid v b) = Header_SizeInvalid v
      ∧ Header_Reset (Header_setCommandInvalid v b) = Header_Reset v
      ∧ Header_DataLength (Header_setCommandInvalid v b) = Header_DataLength v
      ∧ Header_padding (Header_setCommandInvalid v b) = Header_padding v)
    ∧ (Header_Command (Header_setReset v b) = Header_Command v
      ∧ Header_Read (Header_setReset v b) = Header_Read v
      ∧ Header_SizeInvalid (Header_setReset v b) = Header_SizeInvalid v
      ∧ Header_CommandInvalid (Header_setReset v b) = Header_CommandInvalid v
      ∧ Header_DataLength (Header_setReset v b) = Header_DataLength v
      ∧ Header_padding (Header_setReset v b) = Header_padding v)
    ∧ (Header_Command (Header_setDataLength v x) = Header_Command v
      ∧ Header_Read (Header_setDataLength v x) = Header_Read v
      ∧ Header_SizeInvalid (Header_setDataLength v x) = Header_SizeInvalid v
      ∧ Header_CommandInvalid (Header_setDataLength v x) = Header_CommandInvalid v
      ∧ Header_Reset (Header_setDataLength v x) = Header_Reset v
      ∧ Header_padding (Header_setDataLength v x) = Header_padding v)
    ∧ (CommData_bytes c
        = [byteOf c.Header 0, byteOf c.Header 1, byteOf c.Header 2, byteOf c.Header 3]
          ++ (List.range Data_SIZE).map c.Data
      ∧ (CommData_bytes c).length = 128
      ∧ Header_SIZE + Data_SIZE = 128
      ∧ (c.Header < 2 ^ 32 →
          loadLE32 (fun i => (CommData_bytes c).getD i 0) = c.Header)) := by
  have hpack : Header_pack command read sizeInvalid commandInvalid reset dataLength
      = command + 2 ^ 8 * read.toNat + 2 ^ 12 * sizeInvalid.toNat
        + 2 ^ 13 * commandInvalid.toNat + 2 ^ 14 * reset.toNat + 2 ^ 16 * dataLength := by
    have hr := Bool.toNat_le read
    have hs := Bool.toNat_le sizeInvalid
    have hi := Bool.toNat_le commandInvalid
    have ht := Bool.toNat_le reset
    have ite_toNat : ∀ y : Bool, (if y = true then 1 else 0) = y.toNat := by
      intro y; cases y <;> rfl
    have e1 : Header_setCommand 0 command = command := by
      unfold Header_setCommand; omega
    have e2 : Header_setRead command read = command + 256 * read.toNat := by
      unfold Header_setRead; rw [ite_toNat]; omega
    have e3 : Header_setSizeInvalid (command + 256 * read.toNat) sizeInvalid
        = command + 256 * read.toNat + 4096 * sizeInvalid.toNat := by
      unfold Header_setSizeInvalid; rw [ite_toNat]; omega
    have e4 : Header_setCommandInvalid
        (command + 256 * read.toNat + 4096 * sizeInvalid.toNat) commandInvalid
        = command + 256 * read.toNat + 4096 * sizeInvalid.toNat
          + 8192 * commandInvalid.toNat := by
      unfold Header_setCommandInvalid; rw [ite_toNat]; omega
    have e5 : Header_setReset
        (command + 256 * read.toNat + 4096 * sizeInvalid.toNat
          + 8192 * commandInvalid.toNat) reset
        = command + 256 * read.toNat + 4096 * sizeInvalid.toNat
          + 8192 * commandInvalid.toNat + 16384 * reset.toNat := by
      unfold Header_setReset; rw [ite_toNat]; omega
    have e6 : Header_setDataLength
        (command + 256 * read.toNat + 4096 * sizeInvalid.toNat
          + 8192 * commandInvalid.toNat + 16384 * reset.toNat) dataLength
        = command + 256 * read.toNat + 4096 * sizeInvalid.toNat
          + 8192 * commandInvalid.toNat + 16384 * reset.toNat + 65536 * dataLength := by
      unfold Header_setDataLength; omega
    unfold Header_pack
    rw [e1, e2, e3, e4, e5, e6]
    norm_num
  refine ⟨⟨hpack, ?_⟩, ⟨?_, ?_, ?_, ?_, ?_, ?_⟩, ⟨?_, ?_, ?_, ?_, ?_, ?_, ?_⟩,
    ⟨by simp, by simp, by simp, by simp, by simp, by simp⟩,
    ⟨by simp, by simp, by simp, by simp, by simp, by simp⟩,
    ⟨by simp, by simp, by simp, by simp, by simp, by simp⟩,
    ⟨by simp, by simp, by simp, by simp, by simp, by simp⟩,
    ⟨by simp, by simp, by simp, by simp, by simp, by simp⟩,
    ⟨by simp, by simp, by simp, by simp, by simp, by simp⟩,
    ⟨?_, ?_, ?_, ?_⟩⟩
  · rw [hpack]
    have hr := Bool.toNat_le read
    have hs := Bool.toNat_le sizeInvalid
    have hi := Bool.toNat_le commandInvalid
    have ht := Bool.toNat_le reset
    norm_num
    omega
  · rfl
  · rw [Nat.testBit_to_div_mod]; rfl
  · rw [Nat.testBit_to_div_mod]; rfl
  · rw [Nat.testBit_to_div_mod]; rfl
  · rw [Nat.testBit_to_div_mod]; rfl
  · rfl
  · rw [hpack]; unfold Header_Command
    have hr := Bool.toNat_le read
    have hs := Bool.toNat_le sizeInvalid
    have hi := Bool.toNat_le commandInvalid
    have ht := Bool.toNat_le reset
    norm_num
    omega
  · rw [hpack]; unfold Header_Read
    have hr := Bool.toNat_le read
    have hs := Bool.toNat_le sizeInvalid
    have hi := Bool.toNat_le commandInvalid
    have ht := Bool.toNat_le reset
    norm_num
    omega
  · rw [hpack]; unfold Header_SizeInvalid
    have hr := Bool.toNat_le read
    have hs := Bool.toNat_le sizeInvalid
    have hi := Bool.toNat_le commandInvalid
    have ht := Bool.toNat_le reset
    norm_num
    omega
  · rw [hpack]; unfold Header_CommandInvalid
    have hr := Bool.toNat_le read
    have hs := Bool.toNat_le sizeInvalid
    have hi := Bool.toNat_le commandInvalid
    have ht := Bool.toNat_le reset
    norm_num
    omega
  · rw [hpack]; unfold Header_Reset
    have hr := Bool.toNat_le read
    have hs := Bool.toNat_le sizeInvalid
    have hi := Bool.toNat_le commandInvalid
    have ht := Bool.toNat_le reset
    norm_num
    omega
  · rw [hpack]; unfold Header_DataLength
    have hr := Bool.toNat_le read
    have hs := Bool.toNat_le sizeInvalid
    have hi := Bool.toNat_le commandInvalid
    have ht := Bool.toNat_le reset
    norm_num
    omega
  · rw [hpack]; unfold Header_padding
    have hr := Bool.toNat_le read
    have hs := Bool.toNat_le sizeInvalid
    have hi := Bool.toNat_le commandInvalid
    have ht := Bool.toNat_le reset
    refine Prod.ext ?_ ?_ <;> norm_num <;> omega
  · have h4 : (List.range Header_SIZE).map (byteOf c.Header)
        = [byteOf c.Header 0, byteOf c.Header 1, byteOf c.Header 2, byteOf c.Header 3] := rfl
    unfold CommData_bytes
    rw [h4]
  · simp [CommData_bytes, Header_SIZE, Data_SIZE]
  · rfl
  · intro hv
    have hv2 : c.Header < 4294967296 := by simpa using hv
    have h4 : (List.range Header_SIZE).map (byteOf c.Header)
        = [byteOf c.Header 0, byteOf c.Header 1, byteOf c.Header 2, byteOf c.Header 3] := rfl
    unfold CommData_bytes
    rw [h4]
    simp only [loadLE32, byteOf, List.cons_append, List.getD_cons_zero, List.getD_cons_succ]
    simp
    omega

/-- C10, at the header of a Leds read with dataLength 4 and resetFlag set: it
packs to the word 0x00044105, and each field comes back out of it. -/
theorem header_layout_round_trip_witness :
    (5 < 256 ∧ 4 < 65536)
      ∧ Header_pack CMD_LEDS true false false true 4 = 0x00044105
      ∧ Header_Command (Header_pack CMD_LEDS true false false true 4) = CMD_LEDS
      ∧ Header_Read (Header_pack CMD_LEDS true false false true 4) = 1
      ∧ Header_SizeInvalid (Header_pack CMD_LEDS true false false true 4) = 0
      ∧ Header_CommandInvalid (Header_pack CMD_LEDS true false false true 4) = 0
      ∧ Header_Reset (Header_pack CMD_LEDS true false false true 4) = 1
      ∧ Header_DataLength (Header_pack CMD_LEDS true false false true 4) = 4
      ∧ Header_DataLength (Header_setCommand 0x00044105 CMD_IDLE) = Header_DataLength 0x00044105
      ∧ (CommData_bytes ⟨0x00044105, fun _ => 0⟩).length = 128 := by
  have h := header_layout_round_trip CMD_LEDS 4 true false false true (by decide) (by decide)
    0x00044105 CMD_IDLE true ⟨0x00044105, fun _ => 0⟩
  obtain ⟨⟨hp, -⟩, -, ⟨g1, g2, g3, g4, g5, g6, -⟩, ⟨-, -, -, -, s5, -⟩, -, -, -, -, -,
    ⟨-, hl, -, -⟩⟩ := h
  exact ⟨⟨by decide, by decide⟩, hp, g1, g2, g3, g4, g5, g6, s5, hl⟩

/-- C11 as stated fails: the header that the start-up store leaves has
resetFlag (bit 14) set, not clear. -/
theorem resetFlag_at_boot_counterexample :
    Header_Reset (Communicator_init
        ⟨⟨0, fun _ => 0⟩, ⟨1, fun _ => 0, fun _ => 7, 0, false, false⟩⟩).CommData.Header = 1
      ∧ Header_Reset (Communicator_init
        ⟨⟨0, fun _ => 0⟩, ⟨1, fun _ => 0, fun _ => 7, 0, false, false⟩⟩).CommData.Header ≠ 0 := by
  decide

/-- C11, amended. The header value that the dispatcher stores at start-up,
0x00004000, decoded with the bit layout of the header, has resetFlag set and
every other field (command, readFlag, sizeInvalid, commandInvalid, dataLength,
padding) zero; the store touches neither the data nor the device. -/
theorem resetFlag_set_at_boot (s : State) :
    (Communicator_init s).CommData.Header = 0x00004000
      ∧ (Communicator_init s).CommData.Header = Header_pack CMD_IDLE false false false true 0
      ∧ Header_Reset (Communicator_init s).CommData.Header = 1
      ∧ Header_Command (Communicator_init s).CommData.Header = CMD_IDLE
      ∧ Header_Read (Communicator_init s).CommData.Header = 0
      ∧ Header_SizeInvalid (Communicator_init s).CommData.Header = 0
      ∧ Header_CommandInvalid (Communicator_init s).CommData.Header = 0
      ∧ Header_DataLength (Communicator_init s).CommData.Header = 0
      ∧ Header_padding (Communicator_init s).CommData.Header = (0, 0)
      ∧ (Communicator_init s).CommData.Data = s.CommData.Data
      ∧ (Communicator_init s).dev = s.dev := by
  refine ⟨rfl, ?_, ?_, ?_, ?_, ?_, ?_, ?_, ?_, rfl, rfl⟩
  · show 0x00004000 = Header_pack 0 false false false true 0
    decide
  · show 0x00004000 / 16384 % 2 = 1
    rfl
  · show 0x00004000 % 256 = 0
    rfl
  · show 0x00004000 / 256 % 2 = 0
    rfl
  · show 0x00004000 / 4096 % 2 = 0
    rfl
  · show 0x00004000 / 8192 % 2 = 0
    rfl
  · show 0x00004000 / 65536 % 65536 = 0
    rfl
  · show (0x00004000 / 512 % 8, 0x00004000 / 32768 % 2) = (0, 0)
    rfl

/-- C12 as stated fails: a write of Exit that comes in with dataLength 4 ends
with dataLength still 4, although the Exit branch transfers no byte. -/
theorem exit_keeps_dataLength_counterexample :
    transferCount ⟨40, 64⟩ (Header_Read 0x000400FF) (Header_Command 0x000400FF) = 0
      ∧ (Communicator_pass ⟨40, 64⟩ 0
            ⟨⟨0x000400FF, fun _ => 0⟩, ⟨1, fun _ => 0, fun _ => 7, 0, false, false⟩⟩).map
          (fun o => (o.exited, Header_Command o.state.CommData.Header,
            Header_DataLength o.state.CommData.Header))
        = some (true, CMD_IDLE, 4) := by
  decide

/-- C12, amended. Every non-idle request ends with the command cleared to
Idle; for every one of them other than a write of Exit the pass has gone through
the completion statements, so that dataLength is the byte count produced or
consumed by the branch (0 when it transfers nothing); the write of Exit clears
the command itself and returns. The record sizes must leave the byte counts
within 16 bits. -/
theorem every_branch_clears_command (z : Sizes)
    (hc : z.sizeof_coreInfo + 4 < 65536) (hk : z.sizeof_Keys_0 < 65536)
    (adc : Int) (s : State)
    (hidle : Header_Command s.CommData.Header ≠ CMD_IDLE) :
    ∃ o, Communicator_pass z adc s = some o
      ∧ Header_Command o.state.CommData.Header = CMD_IDLE
      ∧ (o.exited = true ↔ (Header_Read s.CommData.Header = 0
          ∧ Header_Command s.CommData.Header = CMD_EXIT))
      ∧ (o.exited = false →
          Header_DataLength o.state.CommData.Header
            = transferCount z (Header_Read s.CommData.Header)
                (Header_Command s.CommData.Header)) := by
  by_cases hexit : Header_Read s.CommData.Header = 0
      ∧ Header_Command s.CommData.Header = CMD_EXIT
  · exact ⟨_, pass_exit z adc s hexit.1 hexit.2, by simp [Outcome.state],
      by simp [Outcome.exited, hexit], by simp [Outcome.exited]⟩
  · obtain ⟨t, ht, -⟩ := pass_serviced z (by omega) hk adc s hidle hexit
    have hlt : transferCount z (Header_Read s.CommData.Header)
        (Header_Command s.CommData.Header) < 65536 := by
      have h12 : sizeof_FirmwareInfo = 12 := rfl
      unfold transferCount
      split_ifs <;> omega
    exact ⟨_, ht, by simp [Outcome.state], by simp [Outcome.exited, hexit],
      fun _ => by simp [Outcome.state, Nat.mod_eq_of_lt hlt]⟩

/-- C12 amended, at a read of the keys that comes in with dataLength 2. -/
theorem every_branch_clears_command_witness :
    (40 + 4 < 65536 ∧ 64 < 65536 ∧ Header_Command 0x00020103 ≠ CMD_IDLE)
      ∧ ∃ o, Communicator_pass ⟨40, 64⟩ 0
            ⟨⟨0x00020103, fun _ => 0⟩, ⟨1, fun _ => 0, fun _ => 7, 0, false, false⟩⟩ = some o
        ∧ Header_Command o.state.CommData.Header = CMD_IDLE
        ∧ (o.exited = true ↔ (Header_Read 0x00020103 = 0
            ∧ Header_Command 0x00020103 = CMD_EXIT))
        ∧ (o.exited = false →
            Header_DataLength o.state.CommData.Header
              = transferCount ⟨40, 64⟩ (Header_Read 0x00020103) (Header_Command 0x00020103)) :=
  ⟨⟨by decide, by decide, by decide⟩,
    every_branch_clears_command ⟨40, 64⟩ (by decide) (by decide) 0
      ⟨⟨0x00020103, fun _ => 0⟩, ⟨1, fun _ => 0, fun _ => 7, 0, false, false⟩⟩ (by decide)⟩

/-- Two device states with the same fields are the same. -/
theorem Device_eq (a b : Device) (h1 : a.version = b.version) (h2 : a.coreInfo = b.coreInfo)
    (h3 : a.Keys_0 = b.Keys_0) (h4 : a.leds = b.leds) (h5 : a.LED_R = b.LED_R)
    (h6 : a.LED_B = b.LED_B) : a = b := by
  cases a; cases b
  simp only at h1 h2 h3 h4 h5 h6
  subst h1 h2 h3 h4 h5 h6
  rfl

/-- C13 as stated fails: two Leds writes with the same header, whose dataLength
is 0, and data that differ in byte 0 only (so that they agree on the first
dataLength bytes) leave different indicator masks and red pins. -/
theorem write_reads_past_dataLength_counterexample :
    Header_DataLength 0x00000005 = 0
      ∧ (Communicator_pass ⟨40, 64⟩ 0
            ⟨⟨0x00000005, fun i => if i = 0 then 1 else 0⟩,
              ⟨1, fun _ => 0, fun _ => 7, 0, false, false⟩⟩).map
          (fun o => (o.state.dev.leds, o.state.dev.LED_R)) = some (1, true)
      ∧ (Communicator_pass ⟨40, 64⟩ 0
            ⟨⟨0x00000005, fun _ => 0⟩,
              ⟨1, fun _ => 0, fun _ => 7, 0, false, false⟩⟩).map
          (fun o => (o.state.dev.leds, o.state.dev.LED_R)) = some (0, false) := by
  decide

/-- C13, amended. A write consumes the bytes of its operation, whatever
dataLength the request carried: the first `sizeof(Keys_0)` bytes of data for
Keys, the first 4 for Leds, none otherwise. Two write requests with the same
header, started from the same device state, whose data agree on those bytes end
with the same device state (keys, indicator mask, outputs), the same header and
the same decision to leave the loop, whatever the other data bytes are. The key
record must fit the 16-bit loop counter. -/
theorem write_consumes_operation_bytes (z : Sizes) (hk : z.sizeof_Keys_0 < 65536)
    (adc1 adc2 : Int) (s1 s2 : State)
    (hwr : Header_Read s1.CommData.Header = 0)
    (hh : s2.CommData.Header = s1.CommData.Header)
    (hd : s2.dev = s1.dev)
    (hdata : ∀ i, i < transferCount z (Header_Read s1.CommData.Header)
        (Header_Command s1.CommData.Header) → s2.CommData.Data i = s1.CommData.Data i) :
    ∃ o1 o2, Communicator_pass z adc1 s1 = some o1
      ∧ Communicator_pass z adc2 s2 = some o2
      ∧ o2.state.dev = o1.state.dev
      ∧ o2.state.CommData.Header = o1.state.CommData.Header
      ∧ o2.exited = o1.exited := by
  have hwr2 : Header_Read s2.CommData.Header = 0 := by rw [hh]; exact hwr
  by_cases hidle : Header_Command s1.CommData.Header = CMD_IDLE
  · exact ⟨_, _, pass_idle z adc1 s1 hidle, pass_idle z adc2 s2 (by rw [hh]; exact hidle),
      hd, hh, rfl⟩
  by_cases hx : Header_Command s1.CommData.Header = CMD_EXIT
  · exact ⟨_, _, pass_exit z adc1 s1 hwr hx, pass_exit z adc2 s2 hwr2 (by rw [hh]; exact hx),
      hd, by simp [Outcome.state, hh], rfl⟩
  by_cases h3 : Header_Command s1.CommData.Header = CMD_KEYS
  · obtain ⟨t1, ht1, hc1, hv1, hi1, hl1, hr1, hb1, hk1⟩ := copyOut_loop z.sizeof_Keys_0 hk s1
    obtain ⟨t2, ht2, hc2, hv2, hi2, hl2, hr2, hb2, hk2⟩ := copyOut_loop z.sizeof_Keys_0 hk s2
    have h32 : Header_Command s2.CommData.Header = CMD_KEYS := by rw [hh]; exact h3
    have htc : transferCount z (Header_Read s1.CommData.Header)
        (Header_Command s1.CommData.Header) = z.sizeof_Keys_0 := by
      simp [transferCount, hwr, h3]
    refine ⟨Outcome.looping (complete z.sizeof_Keys_0 t1),
      Outcome.looping (complete z.sizeof_Keys_0 t2), ?_, ?_, ?_, ?_, rfl⟩
    · simp [Communicator_pass, writeSwitch, afterSwitch, h3, hwr, ht1]
    · simp [Communicator_pass, writeSwitch, afterSwitch, h32, hwr2, ht2]
    · simp only [Outcome.state, complete_dev]
      apply Device_eq
      · rw [hv2, hv1, hd]
      · rw [hi2, hi1, hd]
      · funext j
        rw [hk2 j, hk1 j, hd]
        by_cases hj : j < z.sizeof_Keys_0
        · simp [hj, hdata j (by rw [htc]; exact hj)]
        · simp [hj]
      · rw [hl2, hl1, hd]
      · rw [hr2, hr1, hd]
      · rw [hb2, hb1, hd]
    · simp only [Outcome.state, complete, hc1, hc2, hh]
  by_cases h5 : Header_Command s1.CommData.Header = CMD_LEDS
  · have h52 : Header_Command s2.CommData.Header = CMD_LEDS := by rw [hh]; exact h5
    have htc : transferCount z (Header_Read s1.CommData.Header)
        (Header_Command s1.CommData.Header) = 4 := by
      simp [transferCount, hwr, h5]
    have hload : loadLE32 s2.CommData.Data = loadLE32 s1.CommData.Data := by
      unfold loadLE32
      rw [hdata 0 (by omega), hdata 1 (by omega), hdata 2 (by omega), hdata 3 (by omega)]
    refine ⟨Outcome.looping (complete 4
        { s1 with dev :=
            { s1.dev with
              leds := loadLE32 s1.CommData.Data
              LED_R := (loadLE32 s1.CommData.Data &&& 0x00000001) != 0
              LED_B := (loadLE32 s1.CommData.Data &&& 0x00000100) != 0 } }),
      Outcome.looping (complete 4
        { s2 with dev :=
            { s2.dev with
              leds := loadLE32 s2.CommData.Data
              LED_R := (loadLE32 s2.CommData.Data &&& 0x00000001) != 0
              LED_B := (loadLE32 s2.CommData.Data &&& 0x00000100) != 0 } }), ?_, ?_, ?_, ?_,
      by simp only [Outcome.exited]⟩
    · simp [Communicator_pass, writeSwitch, afterSwitch, h5, hwr]
    · simp [Communicator_pass, writeSwitch, afterSwitch, h52, hwr2]
    · simp [Outcome.state, hload, hd]
    · simp only [Outcome.state, complete, hh]
  · have hidle2 : Header_Command s2.CommData.Header ≠ CMD_IDLE := by rw [hh]; exact hidle
    have hx2 : Header_Command s2.CommData.Header ≠ CMD_EXIT := by rw [hh]; exact hx
    have h32 : Header_Command s2.CommData.Header ≠ CMD_KEYS := by rw [hh]; exact h3
    have h52 : Header_Command s2.CommData.Header ≠ CMD_LEDS := by rw [hh]; exact h5
    refine ⟨Outcome.looping (complete 0 (markCommandInvalid s1)),
      Outcome.looping (complete 0 (markCommandInvalid s2)), ?_, ?_, ?_, ?_, rfl⟩
    · simp [Communicator_pass, writeSwitch, afterSwitch, hidle, hx, h3, h5, hwr]
    · simp [Communicator_pass, writeSwitch, afterSwitch, hidle2, hx2, h32, h52, hwr2]
    · simp [Outcome.state, markCommandInvalid, hd]
    · simp only [Outcome.state, complete, markCommandInvalid, hh]

/-- C13 amended, at two Leds writes with dataLength 0 whose data agree on the
first four bytes and differ at byte 4. -/
theorem write_consumes_operation_bytes_witness :
    (64 < 65536 ∧ Header_Read 0x00000005 = 0
      ∧ (∀ i, i < transferCount ⟨40, 64⟩ (Header_Read 0x00000005) (Header_Command 0x00000005)
          → (fun j => if j = 4 then (9 : Byte) else 1) i = (fun _ => (1 : Byte)) i))
      ∧ ∃ o1 o2, Communicator_pass ⟨40, 64⟩ 0
            ⟨⟨0x00000005, fun _ => 1⟩, ⟨1, fun _ => 0, fun _ => 7, 0, false, false⟩⟩ = some o1
        ∧ Communicator_pass ⟨40, 64⟩ 3
            ⟨⟨0x00000005, fun j => if j = 4 then 9 else 1⟩,
              ⟨1, fun _ => 0, fun _ => 7, 0, false, false⟩⟩ = some o2
        ∧ o2.state.dev = o1.state.dev
        ∧ o2.state.CommData.Header = o1.state.CommData.Header
        ∧ o2.exited = o1.exited := by
  have hagree : ∀ i,
      i < transferCount ⟨40, 64⟩ (Header_Read 0x00000005) (Header_Command 0x00000005)
        → (fun j => if j = 4 then (9 : Byte) else 1) i = (fun _ => (1 : Byte)) i := by
    intro i hi
    have h4 : transferCount ⟨40, 64⟩ (Header_Read 0x00000005) (Header_Command 0x00000005)
        = 4 := by decide
    have hne : i ≠ 4 := by omega
    simp [hne]
  exact ⟨⟨by decide, by decide, hagree⟩,
    write_consumes_operation_bytes ⟨40, 64⟩ (by decide) 0 3
      ⟨⟨0x00000005, fun _ => 1⟩, ⟨1, fun _ => 0, fun _ => 7, 0, false, false⟩⟩
      ⟨⟨0x00000005, fun j => if j = 4 then 9 else 1⟩,
        ⟨1, fun _ => 0, fun _ => 7, 0, false, false⟩⟩
      (by decide) rfl rfl hagree⟩

/-! ## PrintF -/

/-- The loop of `_write`, started at an index `idx` with `k` rounds to go,
stores the characters `ptr[idx]`, ..., `ptr[idx + k - 1]` in that order. -/
theorem write_loop_spec (ptr : Nat → Byte) (numToCopy : Int) :
    ∀ (k : Nat) (idx : Int) (base : SCB), 0 ≤ idx → numToCopy - idx = k →
      _write_loop ptr numToCopy idx base
        = { base with
            txFifoWr := base.txFifoWr ++ (List.range' idx.toNat k).map (fun i => (ptr i).val) } := by
  intro k
  induction k with
  | zero =>
    intro idx base _ hk
    have hnot : ¬ idx < numToCopy := by omega
    rw [_write_loop, if_neg hnot]
    simp
  | succ k ih =>
    intro idx base hidx hk
    have hlt : idx < numToCopy := by omega
    have hnext : (idx + 1).toNat = idx.toNat + 1 := by omega
    rw [_write_loop, if_pos hlt, ih (idx + 1) _ (by omega) (by omega), hnext]
    simp [Cy_SCB_WriteTxFifo, List.range'_succ]

/-- The FIFO has 128 or 64 entries. -/
theorem Cy_SCB_GetFifoSize_le (base : SCB) : Cy_SCB_GetFifoSize base ≤ 128 := by
  unfold Cy_SCB_GetFifoSize
  split_ifs <;> decide

/-- C14. `_write` returns the number of characters transferred: for a length
`len` that is not negative and a TX FIFO occupancy that does not exceed the size
of the FIFO, `_write` stores exactly n = min(len, size - used) characters,
`ptr[0]`, ..., `ptr[n-1]` in that order, to the TX FIFO and returns n; so the
value returned exceeds neither `len` nor the free space of the FIFO. -/
theorem write_returns_number_transferred (base : SCB) (ptr : Nat → Byte) (len : Int)
    (hlen : 0 ≤ len)
    (hused : Cy_SCB_GetNumInTxFifo base ≤ Cy_SCB_GetFifoSize base) :
    (_write base ptr len).1
        = min len ((Cy_SCB_GetFifoSize base : Int) - (Cy_SCB_GetNumInTxFifo base : Int))
      ∧ (_write base ptr len).2.txFifoWr
        = base.txFifoWr
          ++ (List.range (_write base ptr len).1.toNat).map (fun i => (ptr i).val)
      ∧ 0 ≤ (_write base ptr len).1
      ∧ (_write base ptr len).1 ≤ len
      ∧ (_write base ptr len).1
          ≤ (Cy_SCB_GetFifoSize base : Int) - (Cy_SCB_GetNumInTxFifo base : Int)
      ∧ (_write base ptr len).2.byteMode = base.byteMode
      ∧ (_write base ptr len).2.txUsed = base.txUsed := by
  have hsize := Cy_SCB_GetFifoSize_le base
  have hfree : int32OfBits ((Cy_SCB_GetFifoSize base + 4294967296
      - Cy_SCB_GetNumInTxFifo base % 4294967296) % 4294967296)
      = (Cy_SCB_GetFifoSize base : Int) - (Cy_SCB_GetNumInTxFifo base : Int) := by
    unfold int32OfBits
    split_ifs with h <;> omega
  have hret : (_write base ptr len).1
      = min len ((Cy_SCB_GetFifoSize base : Int) - (Cy_SCB_GetNumInTxFifo base : Int)) := by
    simp only [_write, hfree]
    split_ifs with h <;> omega
  have hnn : 0 ≤ (_write base ptr len).1 := by rw [hret]; omega
  have hloop : (_write base ptr len).2
      = { base with
          txFifoWr := base.txFifoWr
            ++ (List.range' 0 (_write base ptr len).1.toNat).map (fun i => (ptr i).val) } := by
    have h := write_loop_spec ptr (_write base ptr len).1 (_write base ptr len).1.toNat 0 base
      (le_refl 0) (by omega)
    simpa [_write] using h
  refine ⟨hret, ?_, hnn, by rw [hret]; omega, by rw [hret]; omega, ?_, ?_⟩
  · rw [hloop, List.range_eq_range']
  · rw [hloop]
  · rw [hloop]

/-- C14, at a FIFO in byte mode holding 120 entries and a request to send 20
characters: 8 are sent. -/
theorem write_returns_number_transferred_witness :
    ((0 : Int) ≤ 20
      ∧ Cy_SCB_GetNumInTxFifo ⟨true, 120, [1]⟩ ≤ Cy_SCB_GetFifoSize ⟨true, 120, [1]⟩)
      ∧ (_write ⟨true, 120, [1]⟩ (fun i => byteOf (i + 65) 0) 20).1 = 8
      ∧ (_write ⟨true, 120, [1]⟩ (fun i => byteOf (i + 65) 0) 20).2.txFifoWr
          = [1, 65, 66, 67, 68, 69, 70, 71, 72] := by
  obtain ⟨h1, h2, -⟩ := write_returns_number_transferred ⟨true, 120, [1]⟩
    (fun i => byteOf (i + 65) 0) 20 (by decide) (by decide)
  have h8 : (_write ⟨true, 120, [1]⟩ (fun i => byteOf (i + 65) 0) 20).1 = 8 := by
    rw [h1]; decide
  refine ⟨⟨by decide, by decide⟩, h8, ?_⟩
  rw [h2, h8]
  decide

/-- C15. The table of recommended baud rates does not follow the formula it
is documented with: rows 1 to 3 do (and the configured defaults give 500,000
baud), but for the settings of rows 4 to 8 the formula gives 71,428, 145,454,
38,461, 19,230 and 9,615 baud where the ACTUAL column says 125,000, 116,279,
38,095, 19,512 and 9,803; the ERROR column is the relative deviation of ACTUAL
from BAUDRATE in rows 1 to 7 and is not in row 8. -/
theorem baud_table_against_formula :
    baudTable.map (fun r => Baudrate r.PERI_DIV_VALUE r.UART_OVERSAMPLE)
        = [1000000, 500000, 250000, 71428, 145454, 38461, 19230, 9615]
      ∧ baudTable.map (fun r => r.ACTUAL)
        = [1000000, 500000, 250000, 125000, 116279, 38095, 19512, 9803]
      ∧ baudTable.map BaudRow.actualMatches
        = [true, true, true, false, false, false, false, false]
      ∧ baudTable.map BaudRow.errorMatches
        = [true, true, true, true, true, true, true, false]
      ∧ Baudrate PERI_DIV_VALUE UART_OVERSAMPLE = 500000 := by
  decide

/-! ## Reads -/

/-- A 32-bit store changes the first four bytes and no other. -/
theorem storeLE32_apply (m : Nat → Byte) (x j : Nat) :
    storeLE32 m x j = if j < 4 then byteOf x j else m j := by
  unfold storeLE32 setByte
  by_cases h3 : j = 3
  · subst h3; simp
  by_cases h2 : j = 2
  · subst h2; simp
  by_cases h1 : j = 1
  · subst h1; simp
  by_cases h0 : j = 0
  · subst h0; simp
  · have : ¬ j < 4 := by omega
    simp [h0, h1, h2, h3, this]

/-- A 32-bit load after a 32-bit store gives the low 32 bits of what was stored. -/
theorem loadLE32_storeLE32 (m : Nat → Byte) (x : Nat) :
    loadLE32 (storeLE32 m x) = x % 4294967296 := by
  unfold loadLE32
  simp only [storeLE32_apply, byteOf]
  norm_num
  omega

/-- Reading a 32-bit pattern back as an `int32_t` undoes taking the pattern of
an `int32_t`. -/
theorem int32OfBits_int32Bits (x : Int) (h1 : -2147483648 ≤ x) (h2 : x < 2147483648) :
    int32OfBits (int32Bits x) = x := by
  unfold int32OfBits int32Bits
  split_ifs with h <;> omega

/-- A pass over a known read puts the byte image of the named state in front
of the data, leaves the rest of the data and the device alone, and reports the
length of the image. -/
theorem pass_read_data (z : Sizes)
    (hc : z.sizeof_coreInfo + 4 < 65536) (hk : z.sizeof_Keys_0 < 65536)
    (adc : Int) (s : State)
    (hrd : Header_Read s.CommData.Header ≠ 0)
    (hcmd : Header_Command s.CommData.Header
      ∈ [CMD_INFO_STACK, CMD_INFO_FIRMWARE, CMD_KEYS, CMD_ADCVAL, CMD_LEDS]) :
    ∃ t, Communicator_pass z adc s = some (Outcome.looping t)
      ∧ Header_DataLength t.CommData.Header
          = transferCount z (Header_Read s.CommData.Header) (Header_Command s.CommData.Header)
      ∧ (∀ j, t.CommData.Data j
          = if j < transferCount z (Header_Read s.CommData.Header)
                (Header_Command s.CommData.Header)
            then readImage adc s.dev (Header_Command s.CommData.Header) j
            else s.CommData.Data j)
      ∧ t.dev = s.dev := by
  simp only [List.mem_cons, List.mem_singleton, List.not_mem_nil, or_false] at hcmd
  rcases hcmd with h | h | h | h | h
  · obtain ⟨t, ht, hd, -, hdata⟩ := copyIn_loop z.sizeof_coreInfo 4 (fun d => d.coreInfo)
      (by omega)
      { s with CommData := { s.CommData with Data := storeLE32 s.CommData.Data s.dev.version } }
    have hmod : (z.sizeof_coreInfo + 4) % 65536 = z.sizeof_coreInfo + 4 :=
      Nat.mod_eq_of_lt hc
    refine ⟨complete (z.sizeof_coreInfo + 4) t, ?_, ?_, ?_, ?_⟩
    · simp [Communicator_pass, readSwitch, afterSwitch, h, hrd, ht, hmod]
    · simp [transferCount, h, hrd, hmod, Nat.add_comm]
    · intro j
      have htc : transferCount z (Header_Read s.CommData.Header)
          (Header_Command s.CommData.Header) = 4 + z.sizeof_coreInfo := by
        simp [transferCount, h, hrd]
      rw [htc]
      simp only [complete_Data, hdata j, storeLE32_apply, readImage, h]
      by_cases h4 : j < 4
      · have h1 : ¬ (4 ≤ j ∧ j < z.sizeof_coreInfo + 4) := by omega
        have h2 : j < 4 + z.sizeof_coreInfo := by omega
        simp [h4, h1, h2]
      · by_cases h5 : j < z.sizeof_coreInfo + 4
        · have h1 : 4 ≤ j ∧ j < z.sizeof_coreInfo + 4 := ⟨by omega, h5⟩
          have h2 : j < 4 + z.sizeof_coreInfo := by omega
          simp [h4, h1, h2]
        · have h1 : ¬ (4 ≤ j ∧ j < z.sizeof_coreInfo + 4) := by omega
          have h2 : ¬ j < 4 + z.sizeof_coreInfo := by omega
          simp [h4, h1, h2]
    · rw [complete_dev, hd]
  · obtain ⟨t, ht, hd, -, hdata⟩ := copyIn_loop sizeof_FirmwareInfo 0
      (fun _ => FirmwareInfo.byte) (by decide) s
    simp only [Nat.add_zero] at ht hdata
    refine ⟨complete sizeof_FirmwareInfo t, ?_, ?_, ?_, ?_⟩
    · simp [Communicator_pass, readSwitch, afterSwitch, h, hrd, ht]
    · simp [transferCount, h, hrd, sizeof_FirmwareInfo]
    · intro j
      have htc : transferCount z (Header_Read s.CommData.Header)
          (Header_Command s.CommData.Header) = sizeof_FirmwareInfo := by
        simp [transferCount, h, hrd]
      rw [htc]
      simp [hdata j, readImage, h]
    · rw [complete_dev, hd]
  · obtain ⟨t, ht, hd, -, hdata⟩ := copyIn_loop z.sizeof_Keys_0 0 (fun d => d.Keys_0) hk s
    simp only [Nat.add_zero] at ht hdata
    refine ⟨complete z.sizeof_Keys_0 t, ?_, ?_, ?_, ?_⟩
    · simp [Communicator_pass, readSwitch, afterSwitch, h, hrd, ht]
    · simp [transferCount, h, hrd, Nat.mod_eq_of_lt hk]
    · intro j
      have htc : transferCount z (Header_Read s.CommData.Header)
          (Header_Command s.CommData.Header) = z.sizeof_Keys_0 := by
        simp [transferCount, h, hrd]
      rw [htc]
      simp [hdata j, readImage, h]
    · rw [complete_dev, hd]
  · refine ⟨complete 4 { s with CommData :=
        { s.CommData with Data := storeLE32 s.CommData.Data (int32Bits adc) } }, ?_, ?_, ?_, ?_⟩
    · simp [Communicator_pass, readSwitch, afterSwitch, h, hrd]
    · simp [transferCount, h, hrd]
    · intro j
      have htc : transferCount z (Header_Read s.CommData.Header)
          (Header_Command s.CommData.Header) = 4 := by
        simp [transferCount, h, hrd]
      rw [htc]
      simp [storeLE32_apply, readImage, h]
    · exact complete_dev 4 _
  · refine ⟨complete 4 { s with CommData :=
        { s.CommData with Data := storeLE32 s.CommData.Data s.dev.leds } }, ?_, ?_, ?_, ?_⟩
    · simp [Communicator_pass, readSwitch, afterSwitch, h, hrd]
    · simp [transferCount, h, hrd]
    · intro j
      have htc : transferCount z (Header_Read s.CommData.Header)
          (Header_Command s.CommData.Header) = 4 := by
        simp [transferCount, h, hrd]
      rw [htc]
      simp [storeLE32_apply, readImage, h]
    · exact complete_dev 4 _

/-- Four bytes that are the bytes of a word load as the low 32 bits of the word. -/
theorem loadLE32_of_bytes (m : Nat → Byte) (x : Nat) (h : ∀ j, j < 4 → m j = byteOf x j) :
    loadLE32 m = x % 4294967296 := by
  unfold loadLE32
  rw [h 0 (by omega), h 1 (by omega), h 2 (by omega), h 3 (by omega)]
  simp only [byteOf]
  norm_num
  omega

/-- The twelve bytes of the firmware record of this build. -/
theorem FirmwareInfo_bytes :
    (List.range sizeof_FirmwareInfo).map (fun j => (FirmwareInfo.byte j).val)
      = [0, 1, 0, 0, 153, 101, 89, 102, 9, 28, 0, 0] := by
  decide

/-- C16. Read responses are exact snapshots: after the pass over a read of
InfoStack, InfoFirmware, Keys, AdcValue or Leds, the first n data bytes are the
byte image of the named state (the 4-byte little-endian stack version followed by
the stack-info record; the 12 bytes of the firmware record; the key record; the
4-byte little-endian two's complement encoding of the sample of one conversion,
which decodes back to the sample for every signed 32-bit value; the 4-byte
little-endian indicator mask), dataLength is n, every data byte from index n on
is as it was, and the device state (keys, indicator mask, outputs) is as it was.
The record sizes must leave the byte counts within 16 bits. -/
theorem read_response_is_snapshot (z : Sizes)
    (hc : z.sizeof_coreInfo + 4 < 65536) (hk : z.sizeof_Keys_0 < 65536)
    (adc : Int) (s : State)
    (hrd : Header_Read s.CommData.Header ≠ 0)
    (hcmd : Header_Command s.CommData.Header
      ∈ [CMD_INFO_STACK, CMD_INFO_FIRMWARE, CMD_KEYS, CMD_ADCVAL, CMD_LEDS]) :
    ∃ t, Communicator_pass z adc s = some (Outcome.looping t)
      ∧ Header_DataLength t.CommData.Header
          = transferCount z (Header_Read s.CommData.Header) (Header_Command s.CommData.Header)
      ∧ (∀ j, j < transferCount z (Header_Read s.CommData.Header)
            (Header_Command s.CommData.Header) →
          t.CommData.Data j = readImage adc s.dev (Header_Command s.CommData.Header) j)
      ∧ (∀ j, transferCount z (Header_Read s.CommData.Header)
            (Header_Command s.CommData.Header) ≤ j →
          t.CommData.Data j = s.CommData.Data j)
      ∧ t.dev = s.dev
      ∧ (Header_Command s.CommData.Header = CMD_INFO_STACK →
          loadLE32 t.CommData.Data = s.dev.version % 4294967296
            ∧ ∀ j, j < z.sizeof_coreInfo → t.CommData.Data (j + 4) = s.dev.coreInfo j)
      ∧ (Header_Command s.CommData.Header = CMD_INFO_FIRMWARE →
          (List.range sizeof_FirmwareInfo).map (fun j => (t.CommData.Data j).val)
            = [0, 1, 0, 0, 153, 101, 89, 102, 9, 28, 0, 0])
      ∧ (Header_Command s.CommData.Header = CMD_KEYS →
          ∀ j, j < z.sizeof_Keys_0 → t.CommData.Data j = s.dev.Keys_0 j)
      ∧ (Header_Command s.CommData.Header = CMD_ADCVAL →
          -2147483648 ≤ adc → adc < 2147483648 →
          int32OfBits (loadLE32 t.CommData.Data) = adc)
      ∧ (Header_Command s.CommData.Header = CMD_LEDS →
          loadLE32 t.CommData.Data = s.dev.leds % 4294967296) := by
  obtain ⟨t, ht, hlen, hdata, hdev⟩ := pass_read_data z hc hk adc s hrd hcmd
  have hrd0 : ¬ Header_Read s.CommData.Header = 0 := hrd
  refine ⟨t, ht, hlen, ?_, ?_, hdev, ?_, ?_, ?_, ?_, ?_⟩
  · intro j hj
    rw [hdata j, if_pos hj]
  · intro j hj
    rw [hdata j, if_neg (by omega)]
  · intro h
    have htc : transferCount z (Header_Read s.CommData.Header)
        (Header_Command s.CommData.Header) = 4 + z.sizeof_coreInfo := by
      simp [transferCount, h, hrd0]
    rw [htc, h] at hdata
    constructor
    · apply loadLE32_of_bytes
      intro j hj
      rw [hdata j, if_pos (by omega)]
      simp [readImage, hj]
    · intro j hj
      rw [hdata (j + 4), if_pos (by omega)]
      simp [readImage]
  · intro h
    have htc : transferCount z (Header_Read s.CommData.Header)
        (Header_Command s.CommData.Header) = sizeof_FirmwareInfo := by
      simp [transferCount, h, hrd0]
    rw [htc, h] at hdata
    rw [← FirmwareInfo_bytes]
    apply List.map_congr_left
    intro j hj
    rw [hdata j, if_pos (List.mem_range.mp hj)]
    simp [readImage]
  · intro h j hj
    have htc : transferCount z (Header_Read s.CommData.Header)
        (Header_Command s.CommData.Header) = z.sizeof_Keys_0 := by
      simp [transferCount, h, hrd0]
    rw [htc, h] at hdata
    rw [hdata j, if_pos hj]
    simp [readImage]
  · intro h h1 h2
    have htc : transferCount z (Header_Read s.CommData.Header)
        (Header_Command s.CommData.Header) = 4 := by
      simp [transferCount, h, hrd0]
    rw [htc, h] at hdata
    have hload : loadLE32 t.CommData.Data = int32Bits adc % 4294967296 := by
      apply loadLE32_of_bytes
      intro j hj
      rw [hdata j, if_pos hj]
      simp [readImage]
    have hlt : int32Bits adc < 4294967296 := by
      unfold int32Bits; omega
    rw [hload, Nat.mod_eq_of_lt hlt]
    exact int32OfBits_int32Bits adc h1 h2
  · intro h
    have htc : transferCount z (Header_Read s.CommData.Header)
        (Header_Command s.CommData.Header) = 4 := by
      simp [transferCount, h, hrd0]
    rw [htc, h] at hdata
    apply loadLE32_of_bytes
    intro j hj
    rw [hdata j, if_pos hj]
    simp [readImage]

/-- C16, at a read of the analog value whose conversion returns -2 mV: the
data start with the bytes FE FF FF FF, which decode back to -2. -/
theorem read_response_is_snapshot_witness :
    (40 + 4 < 65536 ∧ 64 < 65536 ∧ Header_Read 0x00040104 ≠ 0
      ∧ Header_Command 0x00040104
          ∈ [CMD_INFO_STACK, CMD_INFO_FIRMWARE, CMD_KEYS, CMD_ADCVAL, CMD_LEDS])
      ∧ ∃ t, Communicator_pass ⟨40, 64⟩ (-2)
            ⟨⟨0x00040104, fun _ => 9⟩, ⟨1, fun _ => 0, fun _ => 7, 0x101, true, false⟩⟩
          = some (Outcome.looping t)
        ∧ Header_DataLength t.CommData.Header = 4
        ∧ (List.range 4).map (fun j => (t.CommData.Data j).val) = [254, 255, 255, 255]
        ∧ t.CommData.Data 4 = 9
        ∧ int32OfBits (loadLE32 t.CommData.Data) = -2
        ∧ t.dev = ⟨1, fun _ => 0, fun _ => 7, 0x101, true, false⟩ := by
  obtain ⟨t, ht, hlen, himg, hrest, hdev, -, -, -, hadc, -⟩ :=
    read_response_is_snapshot ⟨40, 64⟩ (by decide) (by decide) (-2)
      ⟨⟨0x00040104, fun _ => 9⟩, ⟨1, fun _ => 0, fun _ => 7, 0x101, true, false⟩⟩
      (by decide) (by decide)
  have htc : transferCount ⟨40, 64⟩ (Header_Read 0x00040104) (Header_Command 0x00040104)
      = 4 := by decide
  refine ⟨⟨by decide, by decide, by decide, by decide⟩, t, ht, ?_, ?_, ?_, ?_, hdev⟩
  · rw [hlen]; exact htc
  · have h0 := himg 0 (by rw [htc]; omega)
    have h1 := himg 1 (by rw [htc]; omega)
    have h2 := himg 2 (by rw [htc]; omega)
    have h3 := himg 3 (by rw [htc]; omega)
    simp only [List.range_succ, List.range_zero, List.nil_append, List.cons_append,
      List.map_cons, List.map_nil, h0, h1, h2, h3]
    decide
  · exact hrest 4 (by rw [htc])
  · exact hadc (by decide) (by decide) (by decide)

/-! ## The indices a pass touches -/

/-- Forgetting the trace of a traced loop gives the loop. -/
theorem forLoopT_erase (size : Nat) (body : Nat → Traced → Traced)
    (bodyS : Nat → State → State) (h : ∀ i t, (body i t).s = bodyS i t.s) :
    ∀ fuel cnt t, (forLoopT size body fuel cnt t).map (fun r => (r.1, r.2.s))
      = forLoop size bodyS fuel cnt t.s := by
  intro fuel
  induction fuel with
  | zero => intro cnt t; rfl
  | succ n ih =>
    intro cnt t
    by_cases hlt : cnt < size
    · simp only [forLoopT, forLoop, hlt, if_true]
      rw [ih, h]
    · simp [forLoopT, forLoop, hlt]

/-- When every round of a traced loop adds one index below a bound, the loop
leaves a trace below the bound if it started with one. -/
theorem forLoopT_touched (size bound : Nat) (body : Nat → Traced → Traced) (f : Nat → Nat)
    (hb : ∀ i t, (body i t).touched = t.touched ++ [f i])
    (hf : ∀ i, i < size → f i < bound) :
    ∀ fuel cnt t r, forLoopT size body fuel cnt t = some r →
      (∀ i ∈ t.touched, i < bound) → ∀ i ∈ r.2.touched, i < bound := by
  intro fuel
  induction fuel with
  | zero => intro cnt t r hr; simp [forLoopT] at hr
  | succ n ih =>
    intro cnt t r hr ht
    by_cases hlt : cnt < size
    · simp only [forLoopT, hlt, if_true] at hr
      apply ih _ _ r hr
      intro i hi
      rw [hb] at hi
      rcases List.mem_append.mp hi with h1 | h1
      · exact ht i h1
      · rw [List.mem_singleton.mp h1]
        exact hf cnt hlt
    · simp only [forLoopT, hlt, if_false, Option.some.injEq] at hr
      rw [← hr]
      exact ht

/-- Forgetting the trace of the traced read switch gives the read switch. -/
theorem readSwitchT_erase (z : Sizes) (adc : Int) (s : State) :
    (readSwitchT z adc s).map Prod.fst = readSwitch z adc s := by
  unfold readSwitchT readSwitch
  simp only
  split_ifs
  · have h := forLoopT_erase z.sizeof_coreInfo
      (fun dataCnt t =>
        (⟨{ t.s with CommData :=
            { t.s.CommData with
              Data := setByte t.s.CommData.Data (dataCnt + 4) (t.s.dev.coreInfo dataCnt) } },
          t.touched ++ [dataCnt + 4]⟩ : Traced))
      (fun dataCnt t =>
        { t with CommData :=
            { t.CommData with Data := setByte t.CommData.Data (dataCnt + 4) (t.dev.coreInfo dataCnt) } })
      (fun _ _ => rfl) loopFuel 0 ⟨{ s with CommData := { s.CommData with Data := storeLE32 s.CommData.Data s.dev.version } }, [0, 1, 2, 3]⟩
    rw [Option.map_map, ← h, Option.map_map]
    rfl
  · have h := forLoopT_erase sizeof_FirmwareInfo
      (fun dataCnt t =>
        (⟨{ t.s with CommData :=
            { t.s.CommData with
              Data := setByte t.s.CommData.Data (dataCnt) (FirmwareInfo.byte dataCnt) } },
          t.touched ++ [dataCnt]⟩ : Traced))
      (fun dataCnt t =>
        { t with CommData :=
            { t.CommData with Data := setByte t.CommData.Data (dataCnt) (FirmwareInfo.byte dataCnt) } })
      (fun _ _ => rfl) loopFuel 0 ⟨s, []⟩
    rw [Option.map_map, ← h, Option.map_map]
    rfl
  · have h := forLoopT_erase z.sizeof_Keys_0
      (fun dataCnt t =>
        (⟨{ t.s with CommData :=
            { t.s.CommData with
              Data := setByte t.s.CommData.Data (dataCnt) (t.s.dev.Keys_0 dataCnt) } },
          t.touched ++ [dataCnt]⟩ : Traced))
      (fun dataCnt t =>
        { t with CommData :=
            { t.CommData with Data := setByte t.CommData.Data (dataCnt) (t.dev.Keys_0 dataCnt) } })
      (fun _ _ => rfl) loopFuel 0 ⟨s, []⟩
    rw [Option.map_map, ← h, Option.map_map]
    rfl
  · rfl
  · rfl
  · rfl

/-- Forgetting the trace of the traced write switch gives the write switch. -/
theorem writeSwitchT_erase (z : Sizes) (s : State) :
    (writeSwitchT z s).map Prod.fst = writeSwitch z s := by
  unfold writeSwitchT writeSwitch
  simp only
  split_ifs
  · have h := forLoopT_erase z.sizeof_Keys_0
      (fun dataCnt t =>
        (⟨{ t.s with dev :=
            { t.s.dev with
              Keys_0 := setByte t.s.dev.Keys_0 dataCnt (t.s.CommData.Data dataCnt) } },
          t.touched ++ [dataCnt]⟩ : Traced))
      (fun dataCnt t =>
        { t with dev :=
            { t.dev with Keys_0 := setByte t.dev.Keys_0 dataCnt (t.CommData.Data dataCnt) } })
      (fun _ _ => rfl) loopFuel 0 ⟨s, []⟩
    rw [Option.map_map, ← h, Option.map_map]
    rfl
  · rfl
  · rfl
  · rfl

/-- Forgetting the trace of the traced pass gives the pass. -/
theorem Communicator_passT_erase (z : Sizes) (adc : Int) (s : State) :
    (Communicator_passT z adc s).map Prod.fst = Communicator_pass z adc s := by
  unfold Communicator_passT Communicator_pass
  split_ifs
  · rw [Option.map_map, ← readSwitchT_erase, Option.map_map]
    rfl
  · rw [Option.map_map, ← writeSwitchT_erase, Option.map_map]
    rfl
  · rfl

/-- When the record sizes fit the 16-bit loop counter, every pass ends. -/
theorem pass_total (z : Sizes) (hc : z.sizeof_coreInfo < 65536)
    (hk : z.sizeof_Keys_0 < 65536) (adc : Int) (s : State) :
    ∃ o, Communicator_pass z adc s = some o := by
  by_cases hidle : Header_Command s.CommData.Header = CMD_IDLE
  · exact ⟨_, pass_idle z adc s hidle⟩
  by_cases hexit : Header_Read s.CommData.Header = 0
      ∧ Header_Command s.CommData.Header = CMD_EXIT
  · exact ⟨_, pass_exit z adc s hexit.1 hexit.2⟩
  · obtain ⟨t, ht, -⟩ := pass_serviced z hc hk adc s hidle hexit
    exact ⟨_, ht⟩

/-- When the records fit the payload, the read switch touches indices of `Data`
below 124 only. -/
theorem readSwitchT_touched (z : Sizes) (hkeys : z.sizeof_Keys_0 ≤ Data_SIZE)
    (hinfo : z.sizeof_coreInfo ≤ 120) (adc : Int) (s : State) (r : Switch × List Nat)
    (hr : readSwitchT z adc s = some r) : ∀ i ∈ r.2, i < Data_SIZE := by
  have h124 : Data_SIZE = 124 := rfl
  have h12 : sizeof_FirmwareInfo = 12 := rfl
  unfold readSwitchT at hr
  simp only at hr
  split_ifs at hr
  · obtain ⟨q, hq, hqr⟩ := Option.map_eq_some'.mp hr
    rw [← hqr]
    exact forLoopT_touched z.sizeof_coreInfo Data_SIZE _ (fun i => i + 4) (fun _ _ => rfl)
      (fun i hi => by show i + 4 < Data_SIZE; omega) loopFuel 0 _ q hq (by simp [Data_SIZE])
  · obtain ⟨q, hq, hqr⟩ := Option.map_eq_some'.mp hr
    rw [← hqr]
    exact forLoopT_touched sizeof_FirmwareInfo Data_SIZE _ (fun i => i) (fun _ _ => rfl)
      (fun i hi => by show i < Data_SIZE; omega) loopFuel 0 _ q hq (by simp)
  · obtain ⟨q, hq, hqr⟩ := Option.map_eq_some'.mp hr
    rw [← hqr]
    exact forLoopT_touched z.sizeof_Keys_0 Data_SIZE _ (fun i => i) (fun _ _ => rfl)
      (fun i hi => by show i < Data_SIZE; omega) loopFuel 0 _ q hq (by simp)
  · simp only [Option.some.injEq] at hr
    rw [← hr]; simp [Data_SIZE]
  · simp only [Option.some.injEq] at hr
    rw [← hr]; simp [Data_SIZE]
  · simp only [Option.some.injEq] at hr
    rw [← hr]; simp

/-- When the key record fits the payload, the write switch touches indices of
`Data` below 124 only. -/
theorem writeSwitchT_touched (z : Sizes) (hkeys : z.sizeof_Keys_0 ≤ Data_SIZE)
    (s : State) (r : Switch × List Nat)
    (hr : writeSwitchT z s = some r) : ∀ i ∈ r.2, i < Data_SIZE := by
  have h124 : Data_SIZE = 124 := rfl
  unfold writeSwitchT at hr
  simp only at hr
  split_ifs at hr
  · obtain ⟨q, hq, hqr⟩ := Option.map_eq_some'.mp hr
    rw [← hqr]
    exact forLoopT_touched z.sizeof_Keys_0 Data_SIZE _ (fun i => i) (fun _ _ => rfl)
      (fun i hi => by show i < Data_SIZE; omega) loopFuel 0 _ q hq (by simp)
  · simp only [Option.some.injEq] at hr
    rw [← hr]; simp [Data_SIZE]
  · simp only [Option.some.injEq] at hr
    rw [← hr]; simp
  · simp only [Option.some.injEq] at hr
    rw [← hr]; simp

/-- C17. Payload accesses stay inside the buffer: when the key record has at
most 124 bytes and the stack-info record at most 120 (the firmware record has
12), for every request in either direction the pass ends, every index of data
that it reads or writes is below 124, and the dataLength it writes back is at
most 124. -/
theorem data_accesses_within_buffer (z : Sizes)
    (hkeys : z.sizeof_Keys_0 ≤ Data_SIZE) (hinfo : z.sizeof_coreInfo ≤ 120)
    (adc : Int) (s : State) :
    ∃ o touched, Communicator_passT z adc s = some (o, touched)
      ∧ Communicator_pass z adc s = some o
      ∧ (∀ i ∈ touched, i < Data_SIZE)
      ∧ (Header_Command s.CommData.Header ≠ CMD_IDLE → o.exited = false →
          Header_DataLength o.state.CommData.Header
              = transferCount z (Header_Read s.CommData.Header)
                  (Header_Command s.CommData.Header)
            ∧ Header_DataLength o.state.CommData.Header ≤ Data_SIZE) := by
  have h124 : Data_SIZE = 124 := rfl
  have h12 : sizeof_FirmwareInfo = 12 := rfl
  have hc : z.sizeof_coreInfo + 4 < 65536 := by omega
  have hk : z.sizeof_Keys_0 < 65536 := by omega
  obtain ⟨o, ho⟩ := pass_total z (by omega) hk adc s
  have herase := Communicator_passT_erase z adc s
  rw [ho] at herase
  obtain ⟨⟨o', touched⟩, hT, ho'⟩ := Option.map_eq_some'.mp herase
  simp only at ho'
  subst ho'
  refine ⟨o', touched, hT, ho, ?_, ?_⟩
  · unfold Communicator_passT at hT
    split_ifs at hT with hidle hrd
    · obtain ⟨q, hq, hqr⟩ := Option.map_eq_some'.mp hT
      have := readSwitchT_touched z hkeys hinfo adc s q hq
      simp only [Prod.mk.injEq] at hqr
      rw [← hqr.2]; exact this
    · obtain ⟨q, hq, hqr⟩ := Option.map_eq_some'.mp hT
      have := writeSwitchT_touched z hkeys s q hq
      simp only [Prod.mk.injEq] at hqr
      rw [← hqr.2]; exact this
    · simp only [Option.some.injEq, Prod.mk.injEq] at hT
      rw [← hT.2]; simp
  · intro hidle hex
    have hexit : ¬ (Header_Read s.CommData.Header = 0
        ∧ Header_Command s.CommData.Header = CMD_EXIT) := by
      intro h
      rw [pass_exit z adc s h.1 h.2] at ho
      simp only [Option.some.injEq] at ho
      rw [← ho] at hex
      simp [Outcome.exited] at hex
    obtain ⟨t, ht, -⟩ := pass_serviced z (by omega) hk adc s hidle hexit
    rw [ho] at ht
    simp only [Option.some.injEq] at ht
    have hle : transferCount z (Header_Read s.CommData.Header)
        (Header_Command s.CommData.Header) ≤ 124 := by
      unfold transferCount
      split_ifs <;> omega
    rw [ht]
    simp only [Outcome.state, complete_DataLength]
    rw [Nat.mod_eq_of_lt (by omega), Nat.mod_eq_of_lt (by omega)]
    exact ⟨rfl, by omega⟩

/-- C17, at a device whose stack-info record has 40 bytes and whose key
record has 64, and a frame asking to read the stack information. -/
theorem data_accesses_within_buffer_witness :
    (64 ≤ Data_SIZE ∧ 40 ≤ 120)
      ∧ ∃ o touched, Communicator_passT ⟨40, 64⟩ 0
            ⟨⟨0x00000101, fun _ => 0⟩, ⟨1, fun _ => 0, fun _ => 7, 0, false, false⟩⟩
          = some (o, touched)
        ∧ Communicator_pass ⟨40, 64⟩ 0
            ⟨⟨0x00000101, fun _ => 0⟩, ⟨1, fun _ => 0, fun _ => 7, 0, false, false⟩⟩ = some o
        ∧ (∀ i ∈ touched, i < Data_SIZE)
        ∧ (Header_Command 0x00000101 ≠ CMD_IDLE → o.exited = false →
            Header_DataLength o.state.CommData.Header
                = transferCount ⟨40, 64⟩ (Header_Read 0x00000101) (Header_Command 0x00000101)
              ∧ Header_DataLength o.state.CommData.Header ≤ Data_SIZE) :=
  ⟨⟨by decide, by decide⟩,
    data_accesses_within_buffer ⟨40, 64⟩ (by decide) (by decide) 0
      ⟨⟨0x00000101, fun _ => 0⟩, ⟨1, fun _ => 0, fun _ => 7, 0, false, false⟩⟩⟩

/-- Setting the indicator fields of the device leaves the stack status. -/
theorem Device_set_leds_version (d : Device) (l : Nat) (r b : Bool) :
    ({ d with leds := l, LED_R := r, LED_B := b } : Device).version = d.version := rfl

/-- Setting the indicator fields of the device leaves the stack-info record. -/
theorem Device_set_leds_coreInfo (d : Device) (l : Nat) (r b : Bool) :
    ({ d with leds := l, LED_R := r, LED_B := b } : Device).coreInfo = d.coreInfo := rfl

/-- No pass changes the stack status or the stack-info record. -/
theorem pass_keeps_stack_records (z : Sizes) (hc : z.sizeof_coreInfo < 65536)
    (hk : z.sizeof_Keys_0 < 65536) (adc : Int) (s : State) :
    ∃ o, Communicator_pass z adc s = some o
      ∧ o.state.dev.version = s.dev.version
      ∧ o.state.dev.coreInfo = s.dev.coreInfo := by
  by_cases hidle : Header_Command s.CommData.Header = CMD_IDLE
  · exact ⟨_, pass_idle z adc s hidle, rfl, rfl⟩
  by_cases hr : Header_Read s.CommData.Header = 0
  · by_cases hx : Header_Command s.CommData.Header = CMD_EXIT
    · exact ⟨_, pass_exit z adc s hr hx, rfl, rfl⟩
    by_cases h3 : Header_Command s.CommData.Header = CMD_KEYS
    · obtain ⟨t, ht, -, hv, hi, -⟩ := copyOut_loop z.sizeof_Keys_0 hk s
      refine ⟨Outcome.looping (complete z.sizeof_Keys_0 t), ?_, ?_, ?_⟩
      · simp [Communicator_pass, writeSwitch, afterSwitch, h3, hr, ht]
      · simp only [Outcome.state, complete_dev]; exact hv
      · simp only [Outcome.state, complete_dev]; exact hi
    by_cases h5 : Header_Command s.CommData.Header = CMD_LEDS
    · refine ⟨Outcome.looping (complete 4
        { s with dev :=
            { s.dev with
              leds := loadLE32 s.CommData.Data
              LED_R := (loadLE32 s.CommData.Data &&& 0x00000001) != 0
              LED_B := (loadLE32 s.CommData.Data &&& 0x00000100) != 0 } }), ?_, ?_, ?_⟩
      · simp [Communicator_pass, writeSwitch, afterSwitch, h5, hr]
      · exact Device_set_leds_version _ _ _ _
      · exact Device_set_leds_coreInfo _ _ _ _
    · refine ⟨Outcome.looping (complete 0 (markCommandInvalid s)), ?_, ?_, ?_⟩
      · simp [Communicator_pass, writeSwitch, afterSwitch, hidle, hx, h3, h5, hr]
      · simp only [Outcome.state, complete_dev, markCommandInvalid]
      · simp only [Outcome.state, complete_dev, markCommandInvalid]
  · obtain ⟨t, ht, hd, -⟩ := readSwitch_spec z hc hk adc s hr
    refine ⟨Outcome.looping (complete (transferCount z (Header_Read s.CommData.Header)
        (Header_Command s.CommData.Header) % 65536) t), ?_, ?_, ?_⟩
    · simp [Communicator_pass, hidle, hr, ht, afterSwitch]
    · simp only [Outcome.state, complete_dev]; rw [hd]
    · simp only [Outcome.state, complete_dev]; rw [hd]

/-- C18. Only keys, indicators and Exit are writable: a write of InfoStack,
InfoFirmware or AdcValue sets commandInvalid, writes dataLength 0, clears the
command to Idle and leaves the data and the device state (key record, indicator
mask, outputs, stack status and stack-info record) as they were; and no request
of any kind changes the stack status or the stack-info record, nor the firmware
metadata, which is a constant of the program: a read of the firmware metadata
after the pass returns the 12 bytes of that constant. The record sizes must fit
the 16-bit loop counter for every pass to end. -/
theorem only_keys_leds_exit_writable (z : Sizes)
    (hc : z.sizeof_coreInfo + 4 < 65536) (hk : z.sizeof_Keys_0 < 65536)
    (adc : Int) (s : State) :
    (Header_Read s.CommData.Header = 0 →
        Header_Command s.CommData.Header ∈ [CMD_INFO_STACK, CMD_INFO_FIRMWARE, CMD_ADCVAL] →
        ∃ t, Communicator_pass z adc s = some (Outcome.looping t)
          ∧ Header_CommandInvalid t.CommData.Header = 1
          ∧ Header_DataLength t.CommData.Header = 0
          ∧ Header_Command t.CommData.Header = CMD_IDLE
          ∧ t.CommData.Data = s.CommData.Data
          ∧ t.dev = s.dev)
      ∧ ∃ o, Communicator_pass z adc s = some o
        ∧ o.state.dev.version = s.dev.version
        ∧ o.state.dev.coreInfo = s.dev.coreInfo
        ∧ ∀ (adc2 : Int) (f : CommData_t), Header_Read f.Header ≠ 0 →
            Header_Command f.Header = CMD_INFO_FIRMWARE →
            ∃ u, Communicator_pass z adc2 ⟨f, o.state.dev⟩ = some (Outcome.looping u)
              ∧ (List.range sizeof_FirmwareInfo).map (fun j => (u.CommData.Data j).val)
                  = [0, 1, 0, 0, 153, 101, 89, 102, 9, 28, 0, 0] := by
  constructor
  · intro hwr hcmd
    simp only [List.mem_cons, List.mem_singleton, List.not_mem_nil, or_false] at hcmd
    refine ⟨complete 0 (markCommandInvalid s), ?_, ?_, ?_, ?_, ?_, ?_⟩
    · rcases hcmd with h | h | h <;>
        simp [Communicator_pass, writeSwitch, afterSwitch, h, hwr]
    · simp [markCommandInvalid]
    · simp
    · simp
    · simp only [complete_Data, markCommandInvalid]
    · simp only [complete_dev, markCommandInvalid]
  · obtain ⟨o, ho, hv, hi⟩ := pass_keeps_stack_records z (by omega) hk adc s
    refine ⟨o, ho, hv, hi, ?_⟩
    intro adc2 f hrd hcmd
    have hfw : Header_Command (⟨f, o.state.dev⟩ : State).CommData.Header = CMD_INFO_FIRMWARE :=
      hcmd
    obtain ⟨u, hu, -, hdata, -⟩ := pass_read_data z hc hk adc2 ⟨f, o.state.dev⟩ hrd
      (by rw [hfw]; simp)
    refine ⟨u, hu, ?_⟩
    rw [← FirmwareInfo_bytes]
    apply List.map_congr_left
    intro j hj
    have htc : transferCount z (Header_Read (⟨f, o.state.dev⟩ : State).CommData.Header)
        (Header_Command (⟨f, o.state.dev⟩ : State).CommData.Header) = sizeof_FirmwareInfo := by
      rw [hfw]
      have : ¬ Header_Read (⟨f, o.state.dev⟩ : State).CommData.Header = 0 := hrd
      simp [transferCount, this]
    rw [hdata j, htc, if_pos (List.mem_range.mp hj), hfw]
    simp [readImage]

/-- C18, at a write of InfoFirmware with dataLength 12. -/
theorem only_keys_leds_exit_writable_witness :
    (40 + 4 < 65536 ∧ 64 < 65536)
      ∧ ∃ t, Communicator_pass ⟨40, 64⟩ 0
            ⟨⟨0x000C0002, fun _ => 9⟩, ⟨1, fun _ => 0, fun _ => 7, 0x101, true, false⟩⟩
          = some (Outcome.looping t)
        ∧ Header_CommandInvalid t.CommData.Header = 1
        ∧ Header_DataLength t.CommData.Header = 0
        ∧ Header_Command t.CommData.Header = CMD_IDLE
        ∧ t.CommData.Data = (fun _ => 9)
        ∧ t.dev = ⟨1, fun _ => 0, fun _ => 7, 0x101, true, false⟩ :=
  ⟨⟨by decide, by decide⟩,
    (only_keys_leds_exit_writable ⟨40, 64⟩ (by decide) (by decide) 0
      ⟨⟨0x000C0002, fun _ => 9⟩, ⟨1, fun _ => 0, fun _ => 7, 0x101, true, false⟩⟩).1
      (by decide) (by decide)⟩

/-! ## resetFlag -/

/-- Assigning the command and assigning resetFlag can be done in either order. -/
theorem Header_setReset_setCommand (v x : Nat) (b : Bool) :
    Header_setCommand (Header_setReset v b) x = Header_setReset (Header_setCommand v x) b := by
  have ite_toNat : ∀ y : Bool, (if y = true then 1 else 0) = y.toNat := by
    intro y; cases y <;> rfl
  have hb := Bool.toNat_le b
  unfold Header_setCommand Header_setReset
  rw [ite_toNat]
  omega

/-- Assigning dataLength and assigning resetFlag can be done in either order. -/
theorem Header_setReset_setDataLength (v x : Nat) (b : Bool) :
    Header_setDataLength (Header_setReset v b) x
      = Header_setReset (Header_setDataLength v x) b := by
  have ite_toNat : ∀ y : Bool, (if y = true then 1 else 0) = y.toNat := by
    intro y; cases y <;> rfl
  have hb := Bool.toNat_le b
  unfold Header_setDataLength Header_setReset
  rw [ite_toNat]
  omega

/-- Assigning sizeInvalid and assigning resetFlag can be done in either order. -/
theorem Header_setReset_setSizeInvalid (v : Nat) (x b : Bool) :
    Header_setSizeInvalid (Header_setReset v b) x
      = Header_setReset (Header_setSizeInvalid v x) b := by
  have ite_toNat : ∀ y : Bool, (if y = true then 1 else 0) = y.toNat := by
    intro y; cases y <;> rfl
  have hb := Bool.toNat_le b
  have hx := Bool.toNat_le x
  unfold Header_setSizeInvalid Header_setReset
  rw [ite_toNat, ite_toNat]
  omega

/-- Assigning commandInvalid and assigning resetFlag can be done in either order. -/
theorem Header_setReset_setCommandInvalid (v : Nat) (x b : Bool) :
    Header_setCommandInvalid (Header_setReset v b) x
      = Header_setReset (Header_setCommandInvalid v x) b := by
  have ite_toNat : ∀ y : Bool, (if y = true then 1 else 0) = y.toNat := by
    intro y; cases y <;> rfl
  have hb := Bool.toNat_le b
  have hx := Bool.toNat_le x
  unfold Header_setCommandInvalid Header_setReset
  rw [ite_toNat, ite_toNat]
  omega

/-- A counted loop whose body commutes with a change of the state commutes
with it. -/
theorem forLoop_comm (size : Nat) (body : Nat → State → State) (f : State → State)
    (h : ∀ i s, body i (f s) = f (body i s)) :
    ∀ fuel cnt s, forLoop size body fuel cnt (f s)
      = (forLoop size body fuel cnt s).map (fun r => (r.1, f r.2)) := by
  intro fuel
  induction fuel with
  | zero => intro cnt s; rfl
  | succ n ih =>
    intro cnt s
    by_cases hlt : cnt < size
    · simp only [forLoop, hlt, if_true]
      rw [h, ih]
    · simp [forLoop, hlt]

/-- The completion statements commute with a change of resetFlag. -/
theorem complete_withReset (n : Nat) (b : Bool) (s : State) :
    complete n (withReset b s) = withReset b (complete n s) := by
  simp only [complete, withReset, Header_DataLength_setReset, Header_setReset_setSizeInvalid,
    Header_setReset_setDataLength, Header_setReset_setCommand]

/-- Setting commandInvalid commutes with a change of resetFlag. -/
theorem markCommandInvalid_withReset (b : Bool) (s : State) :
    markCommandInvalid (withReset b s) = withReset b (markCommandInvalid s) := by
  simp only [markCommandInvalid, withReset, Header_setReset_setCommandInvalid]

/-- The read switch commutes with a change of resetFlag. -/
theorem readSwitch_withReset (z : Sizes) (adc : Int) (b : Bool) (s : State) :
    readSwitch z adc (withReset b s)
      = (readSwitch z adc s).map (Switch.mapState (withReset b)) := by
  have hcmd : Header_Command (withReset b s).CommData.Header
      = Header_Command s.CommData.Header := by
    simp [withReset]
  unfold readSwitch
  simp only [hcmd]
  split_ifs
  · have h := forLoop_comm z.sizeof_coreInfo
      (fun dataCnt t =>
        { t with CommData :=
            { t.CommData with
              Data := setByte t.CommData.Data (dataCnt + 4) (t.dev.coreInfo dataCnt) } })
      (withReset b) (fun _ _ => rfl) loopFuel 0
      { s with CommData := { s.CommData with Data := storeLE32 s.CommData.Data s.dev.version } }
    rw [Option.map_map]
    refine Eq.trans ?_ (congrArg (Option.map (fun r => Switch.brk ((r.1 + 4) % 65536) r.2)) h
      |>.trans ?_)
    · rfl
    · rw [Option.map_map]; rfl
  · have h := forLoop_comm sizeof_FirmwareInfo
      (fun dataCnt t =>
        { t with CommData :=
            { t.CommData with
              Data := setByte t.CommData.Data dataCnt (FirmwareInfo.byte dataCnt) } })
      (withReset b) (fun _ _ => rfl) loopFuel 0 s
    rw [Option.map_map, h, Option.map_map]; rfl
  · have h := forLoop_comm z.sizeof_Keys_0
      (fun dataCnt t =>
        { t with CommData :=
            { t.CommData with
              Data := setByte t.CommData.Data dataCnt (t.dev.Keys_0 dataCnt) } })
      (withReset b) (fun _ _ => rfl) loopFuel 0 s
    rw [Option.map_map, h, Option.map_map]; rfl
  · rfl
  · rfl
  · simp only [Option.map_some', Switch.mapState, markCommandInvalid_withReset]

/-- The write switch commutes with a change of resetFlag. -/
theorem writeSwitch_withReset (z : Sizes) (b : Bool) (s : State) :
    writeSwitch z (withReset b s)
      = (writeSwitch z s).map (Switch.mapState (withReset b)) := by
  have hcmd : Header_Command (withReset b s).CommData.Header
      = Header_Command s.CommData.Header := by
    simp [withReset]
  unfold writeSwitch
  simp only [hcmd]
  split_ifs
  · have h := forLoop_comm z.sizeof_Keys_0
      (fun dataCnt t =>
        { t with dev :=
            { t.dev with Keys_0 := setByte t.dev.Keys_0 dataCnt (t.CommData.Data dataCnt) } })
      (withReset b) (fun _ _ => rfl) loopFuel 0 s
    rw [Option.map_map, h, Option.map_map]; rfl
  · rfl
  · simp only [Option.map_some', Switch.mapState, withReset, Header_setReset_setCommand]
  · simp only [Option.map_some', Switch.mapState, markCommandInvalid_withReset]

/-- What follows a switch commutes with a change of resetFlag. -/
theorem afterSwitch_withReset (b : Bool) (sw : Switch) :
    afterSwitch (Switch.mapState (withReset b) sw)
      = Outcome.mapState (withReset b) (afterSwitch sw) := by
  cases sw with
  | brk n t => simp only [afterSwitch, Switch.mapState, Outcome.mapState, complete_withReset]
  | ret t => rfl

/-- A pass commutes with a change of resetFlag: started from the frame with
another resetFlag it does the same, and leaves the other resetFlag in the
header. -/
theorem pass_withReset (z : Sizes) (adc : Int) (b : Bool) (s : State) :
    Communicator_pass z adc (withReset b s)
      = (Communicator_pass z adc s).map (Outcome.mapState (withReset b)) := by
  have hcmd : Header_Command (withReset b s).CommData.Header
      = Header_Command s.CommData.Header := by
    simp [withReset]
  have hrd : Header_Read (withReset b s).CommData.Header
      = Header_Read s.CommData.Header := by
    simp [withReset]
  unfold Communicator_pass
  simp only [hcmd, hrd]
  split_ifs
  · rw [readSwitch_withReset, Option.map_map, Option.map_map]
    congr 1
    funext sw
    exact afterSwitch_withReset b sw
  · rw [writeSwitch_withReset, Option.map_map, Option.map_map]
    congr 1
    funext sw
    exact afterSwitch_withReset b sw
  · rfl

/-- The state of an outcome with a function applied to its state. -/
theorem Outcome.mapState_state (f : State → State) (o : Outcome) :
    (o.mapState f).state = f o.state := by
  cases o <;> rfl

/-- Applying a function to the state of an outcome keeps the exit decision. -/
theorem Outcome.mapState_exited (f : State → State) (o : Outcome) :
    (o.mapState f).exited = o.exited := by
  cases o <;> rfl

/-- A pass leaves resetFlag, readFlag and the padding bits of the header as it
found them. -/
theorem pass_keeps_input_bits (z : Sizes) (hc : z.sizeof_coreInfo < 65536)
    (hk : z.sizeof_Keys_0 < 65536) (adc : Int) (s : State) :
    ∃ o, Communicator_pass z adc s = some o
      ∧ Header_Reset o.state.CommData.Header = Header_Reset s.CommData.Header
      ∧ Header_Read o.state.CommData.Header = Header_Read s.CommData.Header
      ∧ Header_padding o.state.CommData.Header = Header_padding s.CommData.Header := by
  by_cases hidle : Header_Command s.CommData.Header = CMD_IDLE
  · exact ⟨_, pass_idle z adc s hidle, rfl, rfl, rfl⟩
  by_cases hexit : Header_Read s.CommData.Header = 0
      ∧ Header_Command s.CommData.Header = CMD_EXIT
  · refine ⟨_, pass_exit z adc s hexit.1 hexit.2, ?_, ?_, ?_⟩ <;> simp [Outcome.state]
  · obtain ⟨t, ht, hh⟩ := pass_serviced z hc hk adc s hidle hexit
    refine ⟨_, ht, ?_, ?_, ?_⟩
    · simp only [Outcome.state, complete, hh]
      split_ifs <;> simp
    · simp only [Outcome.state, complete, hh]
      split_ifs <;> simp
    · simp only [Outcome.state, complete, hh]
      split_ifs <;> simp

/-- C19. resetFlag has no effect on dispatch: a pass leaves resetFlag,
readFlag and the padding bits of the header at their incoming values; and the
pass started from the frame that differs in resetFlag only ends with the same
command, sizeInvalid, commandInvalid, dataLength, data, device state and decision
to leave the loop (and with its own resetFlag in the header). The record sizes
must fit the 16-bit loop counter for the pass to end. -/
theorem resetFlag_has_no_effect (z : Sizes)
    (hc : z.sizeof_coreInfo < 65536) (hk : z.sizeof_Keys_0 < 65536)
    (adc : Int) (b : Bool) (s : State) :
    ∃ o o2, Communicator_pass z adc s = some o
      ∧ Communicator_pass z adc (withReset b s) = some o2
      ∧ Header_Reset o.state.CommData.Header = Header_Reset s.CommData.Header
      ∧ Header_Read o.state.CommData.Header = Header_Read s.CommData.Header
      ∧ Header_padding o.state.CommData.Header = Header_padding s.CommData.Header
      ∧ Header_Command o2.state.CommData.Header = Header_Command o.state.CommData.Header
      ∧ Header_SizeInvalid o2.state.CommData.Header
          = Header_SizeInvalid o.state.CommData.Header
      ∧ Header_CommandInvalid o2.state.CommData.Header
          = Header_CommandInvalid o.state.CommData.Header
      ∧ Header_DataLength o2.state.CommData.Header
          = Header_DataLength o.state.CommData.Header
      ∧ Header_Read o2.state.CommData.Header = Header_Read o.state.CommData.Header
      ∧ Header_padding o2.state.CommData.Header = Header_padding o.state.CommData.Header
      ∧ o2.state.CommData.Data = o.state.CommData.Data
      ∧ o2.state.dev = o.state.dev
      ∧ o2.exited = o.exited
      ∧ Header_Reset o2.state.CommData.Header = (if b then 1 else 0) := by
  obtain ⟨o, ho, h1, h2, h3⟩ := pass_keeps_input_bits z hc hk adc s
  have h2nd : Communicator_pass z adc (withReset b s)
      = some (o.mapState (withReset b)) := by
    rw [pass_withReset, ho]; rfl
  refine ⟨o, o.mapState (withReset b), ho, h2nd, h1, h2, h3, ?_, ?_, ?_, ?_, ?_, ?_, ?_, ?_,
    Outcome.mapState_exited _ o, ?_⟩
  all_goals rw [Outcome.mapState_state]
  all_goals simp [withReset]

/-- C19, at a Leds read whose header has resetFlag set; the other frame has it
clear. -/
theorem resetFlag_has_no_effect_witness :
    (40 < 65536 ∧ 64 < 65536)
      ∧ ∃ o o2, Communicator_pass ⟨40, 64⟩ 0
            ⟨⟨0x00044105, fun _ => 9⟩, ⟨1, fun _ => 0, fun _ => 7, 0x101, true, false⟩⟩ = some o
        ∧ Communicator_pass ⟨40, 64⟩ 0
            (withReset false
              ⟨⟨0x00044105, fun _ => 9⟩, ⟨1, fun _ => 0, fun _ => 7, 0x101, true, false⟩⟩)
          = some o2
        ∧ Header_Reset o.state.CommData.Header = Header_Reset 0x00044105
        ∧ Header_Read o.state.CommData.Header = Header_Read 0x00044105
        ∧ Header_padding o.state.CommData.Header = Header_padding 0x00044105
        ∧ Header_Command o2.state.CommData.Header = Header_Command o.state.CommData.Header
        ∧ Header_SizeInvalid o2.state.CommData.Header
            = Header_SizeInvalid o.state.CommData.Header
        ∧ Header_CommandInvalid o2.state.CommData.Header
            = Header_CommandInvalid o.state.CommData.Header
        ∧ Header_DataLength o2.state.CommData.Header
            = Header_DataLength o.state.CommData.Header
        ∧ Header_Read o2.state.CommData.Header = Header_Read o.state.CommData.Header
        ∧ Header_padding o2.state.CommData.Header = Header_padding o.state.CommData.Header
        ∧ o2.state.CommData.Data = o.state.CommData.Data
        ∧ o2.state.dev = o.state.dev
        ∧ o2.exited = o.exited
        ∧ Header_Reset o2.state.CommData.Header = (if false then 1 else 0) :=
  ⟨⟨by decide, by decide⟩,
    resetFlag_has_no_effect ⟨40, 64⟩ (by decide) (by decide) 0 false
      ⟨⟨0x00044105, fun _ => 9⟩, ⟨1, fun _ => 0, fun _ => 7, 0x101, true, false⟩⟩⟩

end OTX
